import Mathlib

/-!
# Verification of the xavierai_back retrieval-augmented QA core

Shallow embedding, in Lean 4, of the parts of the `xavierai_back` repository
that the specification's claims talk about:

* `utils/text_processing.py` — `TextProcessor.clean_text`, `TextProcessor.chunk_text`
* `utils/nlp_utils_enhanced.py` — `calculate_response_confidence`,
  `should_suggest_ticket`, `generate_enhanced_fallback_response`,
  `get_enhanced_answer`
* `utils/fallback.py` / `utils/embedding_service.py` — deterministic fallback
  embeddings
* `utils/vector_db.py` — `VectorDBService` (`create_collection`,
  `add_documents`, `search`, `_fallback_text_search`, `get_collection_info`)
* `services/chatbot_service.py` — `ChatbotService.get_answer`

Modelling conventions:

* Python machine floats are modelled as exact rationals (`ℚ`); the one place a
  square root appears (L2 normalisation) is stated over `ℝ`.
* Python exceptions are modelled with `Except PyErr`; a `try/except` block is a
  `match` on the `Except` value.
* External collaborators (the Qdrant server, numpy's PRNG, MD5, the LLM, the
  NLTK sentence tokenizer, Redis) are parameters of the embedding, constrained
  only by properties that are unconditionally true of the real collaborator
  (e.g. `np.random.random(n)` returns `n` samples).
* Python `dict`s that the code uses as string-keyed records are association
  lists.
-/

namespace XavierAI

/-! ## Python-style string preliminaries

`pyIsSpace` is the ASCII fragment of Python's `str.isspace` / regex `\s`
character class; `pyIsWordChar` is the ASCII fragment of regex `\w`.  The
claims under study never depend on the non-ASCII rows of Python's Unicode
tables, so the embedding fixes the ASCII fragment.
-/

/-- ASCII fragment of Python's whitespace class (regex `\s`, `str.strip()`,
`str.split()`): space, tab, newline, carriage return, vertical tab, form
feed. -/
def pyIsSpace (c : Char) : Bool :=
  c = ' ' || c = '\t' || c = '\n' || c = '\x0d' || c = '\x0b' || c = '\x0c'

/-- ASCII fragment of the regex `\w` class: `[a-zA-Z0-9_]`. -/
def pyIsWordChar (c : Char) : Bool :=
  (('a' ≤ c && c ≤ 'z') || ('A' ≤ c && c ≤ 'Z') || ('0' ≤ c && c ≤ '9')
    || c = '_')

/-- Maximal runs of characters satisfying `p`, in order; the accumulator
holds the current run reversed. -/
def runsBy (p : Char → Bool) : List Char → List Char → List String
  | [], acc => if acc.isEmpty then [] else [String.mk acc.reverse]
  | c :: rest, acc =>
    if p c then runsBy p rest (c :: acc)
    else if acc.isEmpty then runsBy p rest []
    else String.mk acc.reverse :: runsBy p rest []

/-- Python `str.split()` with no argument: the maximal runs of
non-whitespace characters. -/
def pySplit (s : String) : List String :=
  runsBy (fun c => !pyIsSpace c) s.toList []

/-- Python `str.lower()`, character-wise. -/
def pyLower (s : String) : String :=
  String.mk (s.toList.map Char.toLower)

/-- The pattern is an initial segment of the character list. -/
def leadsWith : List Char → List Char → Bool
  | _, [] => true
  | [], _ :: _ => false
  | a :: as, b :: bs => a = b && leadsWith as bs

/-- The pattern occurs as a contiguous segment of the character list. -/
def occursIn : List Char → List Char → Bool
  | [], pat => leadsWith [] pat
  | l@(_ :: rest), pat => leadsWith l pat || occursIn rest pat

/-- Python's substring test `pat in s`. -/
def strContains (s pat : String) : Bool :=
  occursIn s.toList pat.toList

/-- Python `str.strip()` on a list of characters (ASCII whitespace). -/
def pyStripList (l : List Char) : List Char :=
  ((l.dropWhile pyIsSpace).reverse.dropWhile pyIsSpace).reverse

/-- Python `str.strip()`. -/
def pyStrip (s : String) : String :=
  String.mk (pyStripList s.toList)

/-! ## `TextProcessor.clean_text` (`utils/text_processing.py`, 40–61)

The Python body is three regex substitutions plus a strip:

1. `re.sub(r'\s+', ' ', text)` — collapse each whitespace run to one space;
2. `re.sub(r"[^\w\s.,;:!?'\"\-()]", ' ', text)` — replace every character
   outside the allow-list by a space;
3. `re.sub(r'\s+', ' ', text)` again;
4. `text.strip()`.

`collapseWS` implements substitution 1/3 directly: the boolean argument
records whether the previous input character was part of a whitespace run
whose single replacement space has already been emitted.
-/

/-- The explicit punctuation allow-list of `clean_text`'s second regex:
`.,;:!?'"-()` (apostrophe written as `Char.ofNat 39`). -/
def cleanPunct : List Char :=
  ['.', ',', ';', ':', '!', '?', Char.ofNat 39, '"', '-', '(', ')']

/-- A character survives `clean_text`'s second substitution iff it matches
`\w`, `\s`, or the punctuation allow-list. -/
def cleanAllowed (c : Char) : Bool :=
  pyIsWordChar c || pyIsSpace c || c ∈ cleanPunct

/-- `re.sub(r'\s+', ' ', ·)` on a character list; `emitted` is true when the
current whitespace run has already produced its single replacement space. -/
def collapseWS (emitted : Bool) : List Char → List Char
  | [] => []
  | c :: rest =>
    if pyIsSpace c then
      if emitted then collapseWS true rest
      else ' ' :: collapseWS true rest
    else c :: collapseWS false rest

/-- `re.sub(r"[^\w\s.,;:!?'\"\-()]", ' ', ·)` on a character list. -/
def replaceDisallowed (l : List Char) : List Char :=
  l.map (fun c => if cleanAllowed c then c else ' ')

/-- The composite character-level pipeline of `clean_text` on a string's
characters. -/
def cleanCore (l : List Char) : List Char :=
  pyStripList (collapseWS false (replaceDisallowed (collapseWS false l)))

/-- A Python value as received by `clean_text`: a `str`, or anything else
(`None`, a number, ...). -/
inductive PyTextInput where
  | PyStr : String → PyTextInput
  | PyNonStr : PyTextInput
deriving DecidableEq

/-- Shallow embedding of `TextProcessor.clean_text(text)`: the guard
`if not text or not isinstance(text, str): return ""` followed by the three
substitutions and the strip. -/
def clean_text : PyTextInput → String
  | .PyStr s => if s = "" then "" else String.mk (cleanCore s.toList)
  | .PyNonStr => ""

/-- Python `" ".join(parts)`. -/
def pyJoin : List String → String
  | [] => ""
  | [s] => s
  | s :: rest => s ++ " " ++ pyJoin rest

/-! ## `TextProcessor.chunk_text` (`utils/text_processing.py`, 63–130)

`chunk_text` splits the text into sentences with NLTK's `sent_tokenize`
(an external collaborator, modelled as a function returning `none` when it
raises), then greedily packs stripped sentences into a buffer, flushing when
the running sum of sentence lengths would exceed `chunk_size`; a sentence
longer than `chunk_size` is hard-split into windows
`sentence[i : i + chunk_size]` for `i in range(0, len, chunk_size -
chunk_overlap)`.  On a tokenizer exception it falls back to the same fixed
windows over the raw text.
-/

/-- The three constructor parameters of `TextProcessor` (defaults
`800 / 200 / 100`). -/
structure TextProcessorCfg where
  chunk_size : ℕ
  chunk_overlap : ℕ
  min_chunk_size : ℕ

/-- The singleton `text_processor = TextProcessor()` configuration. -/
def defaultTP : TextProcessorCfg := ⟨800, 200, 100⟩

/-- Python `range(0, stop, step)` for `step > 0` (the code always calls it
with `step = chunk_size - chunk_overlap`; `step = 0` would raise in Python
and is mapped to `[]`, unused under the claims' hypotheses). -/
def rangeStep (stop step : ℕ) : List ℕ :=
  if step = 0 then []
  else (List.range ((stop + step - 1) / step)).map (fun k => k * step)

/-- Python string slice `s[i : i + n]`. -/
def pySlice (s : String) (i n : ℕ) : String :=
  String.mk ((s.toList.drop i).take n)

/-- The hard-split of an over-long sentence: the windows
`sentence[i : i + chunk_size]` that pass the `min_chunk_size` filter. -/
def longSentenceWindows (cfg : TextProcessorCfg) (sentence : String) :
    List String :=
  ((rangeStep sentence.length (cfg.chunk_size - cfg.chunk_overlap)).map
    (fun i => pySlice sentence i cfg.chunk_size)).filter
    (fun c => cfg.min_chunk_size ≤ c.length)

/-- The sentence loop of `chunk_text`: state is
`(chunks, current_chunk, current_length)` exactly as in the source.  Note
that `current_length` tracks the *sum of sentence lengths*, not the length
of `" ".join(current_chunk)`. -/
def chunkLoop (cfg : TextProcessorCfg) :
    List String → List String → List String → ℕ → List String
  | [], chunks, current, _clen =>
    if current ≠ [] ∧ cfg.min_chunk_size ≤ (pyJoin current).length then
      chunks ++ [pyJoin current]
    else chunks
  | s :: rest, chunks, current, clen =>
    if cfg.chunk_size < (pyStrip s).length then
      chunkLoop cfg rest
        ((if current ≠ [] then chunks ++ [pyJoin current] else chunks) ++
          longSentenceWindows cfg (pyStrip s)) [] 0
    else if cfg.chunk_size < clen + (pyStrip s).length then
      chunkLoop cfg rest
        (if current ≠ [] ∧ cfg.min_chunk_size ≤ (pyJoin current).length then
          chunks ++ [pyJoin current]
        else chunks) [pyStrip s] (pyStrip s).length
    else
      chunkLoop cfg rest chunks (current ++ [pyStrip s])
        (clen + (pyStrip s).length)

/-- The sentence-packing path of `chunk_text`, as a function of the
tokenizer's sentence list. -/
def chunk_text_sentences (cfg : TextProcessorCfg)
    (sentences : List String) : List String :=
  chunkLoop cfg sentences [] [] 0

/-- The `except` path of `chunk_text`: fixed overlapping character
windows over the raw text. -/
def chunk_text_char_fallback (cfg : TextProcessorCfg) (text : String) :
    List String :=
  ((rangeStep text.length (cfg.chunk_size - cfg.chunk_overlap)).map
    (fun i => pySlice text i cfg.chunk_size)).filter
    (fun c => cfg.min_chunk_size ≤ c.length)

/-- Shallow embedding of `TextProcessor.chunk_text(text)`; `tokenize` models
`nltk.sent_tokenize`, returning `none` when it raises. -/
def chunk_text (cfg : TextProcessorCfg)
    (tokenize : String → Option (List String)) (text : String) :
    List String :=
  if text = "" then []
  else
    match tokenize text with
    | some sentences => chunk_text_sentences cfg sentences
    | none => chunk_text_char_fallback cfg text

/-! ### Offset-instrumented variant of the sentence loop

`chunkLoopAnn` is `chunkLoop` with each sentence annotated by its start
offset in the input text and each emitted chunk annotated by the offset it
starts at (the offset of its first sentence, or `o + i` for the window at
`i` of a long sentence at `o`).  `chunkLoopAnn_proj` below shows it is the
same computation.
-/

/-- The window chunks of a long sentence together with their start
offsets. -/
def longSentenceWindowsAnn (cfg : TextProcessorCfg) (o : ℕ)
    (sentence : String) : List (ℕ × String) :=
  ((rangeStep sentence.length (cfg.chunk_size - cfg.chunk_overlap)).map
    (fun i => (o + i, pySlice sentence i cfg.chunk_size))).filter
    (fun c => cfg.min_chunk_size ≤ c.2.length)

/-- The start offset of the buffered chunk: the offset of its first
sentence (`0` for an empty buffer, never used). -/
def bufStart (current : List (ℕ × String)) : ℕ :=
  match current with
  | [] => 0
  | (o, _) :: _ => o

/-- `chunkLoop`, instrumented with start offsets. -/
def chunkLoopAnn (cfg : TextProcessorCfg) :
    List (ℕ × String) → List (ℕ × String) → List (ℕ × String) → ℕ →
      List (ℕ × String)
  | [], chunks, current, _clen =>
    if current ≠ [] ∧
        cfg.min_chunk_size ≤ (pyJoin (current.map Prod.snd)).length then
      chunks ++ [(bufStart current, pyJoin (current.map Prod.snd))]
    else chunks
  | (o, s) :: rest, chunks, current, clen =>
    if cfg.chunk_size < (pyStrip s).length then
      chunkLoopAnn cfg rest
        ((if current ≠ [] then
            chunks ++ [(bufStart current, pyJoin (current.map Prod.snd))]
          else chunks) ++ longSentenceWindowsAnn cfg o (pyStrip s)) [] 0
    else if cfg.chunk_size < clen + (pyStrip s).length then
      chunkLoopAnn cfg rest
        (if current ≠ [] ∧
            cfg.min_chunk_size ≤ (pyJoin (current.map Prod.snd)).length then
          chunks ++ [(bufStart current, pyJoin (current.map Prod.snd))]
        else chunks) [(o, pyStrip s)] (pyStrip s).length
    else
      chunkLoopAnn cfg rest chunks (current ++ [(o, pyStrip s)])
        (clen + (pyStrip s).length)

/-- The offset-instrumented sentence-packing path. -/
def chunk_text_ann (cfg : TextProcessorCfg)
    (sentences : List (ℕ × String)) : List (ℕ × String) :=
  chunkLoopAnn cfg sentences [] [] 0

/-- Successor relation on annotated sentences: the next sentence starts
after the previous stripped sentence ends. -/
abbrev sentR (a b : ℕ × String) : Prop :=
  a.1 + (pyStrip a.2).length ≤ b.1

instance : IsTrans (ℕ × String) sentR :=
  ⟨fun _ b _ h1 h2 => le_trans h1 (le_trans (Nat.le_add_right b.1 _) h2)⟩

/-- Well-formedness of an annotated sentence list: consecutive sentences
start after the previous stripped sentence ends, and no sentence strips to
the empty string.  This is what `nltk.sent_tokenize` guarantees for the
sentences of a text. -/
def OrderedSentences (l : List (ℕ × String)) : Prop :=
  l.Chain' sentR ∧ ∀ x ∈ l, 1 ≤ (pyStrip x.2).length

/-- Concrete tokenizer output used to refute claim C9's length bound: 400
two-character sentences (`"a."`, as produced by the cleaned text
`"a. a. … a."`) followed by one 150-character sentence.  The greedy loop
packs all 400 short sentences (`current_length = 800 ≤ 800`), then flushes a
single chunk of joined length `800 + 399 = 1199 > 800` that is not the last
chunk. -/
def cexC9 : List String :=
  List.replicate 400 "a." ++ [String.mk (List.replicate 150 'x')]

/-! ## `CONFIDENCE_THRESHOLDS` (`utils/nlp_utils_enhanced.py`, lines 60–65) -/

/-- `CONFIDENCE_THRESHOLDS['HIGH']`. -/
def THRESHOLD_HIGH : ℚ := 70
/-- `CONFIDENCE_THRESHOLDS['MEDIUM']`. -/
def THRESHOLD_MEDIUM : ℚ := 50
/-- `CONFIDENCE_THRESHOLDS['LOW']`. -/
def THRESHOLD_LOW : ℚ := 20
/-- `CONFIDENCE_THRESHOLDS['VERY_LOW']`. -/
def THRESHOLD_VERY_LOW : ℚ := 0

/-! ## `calculate_response_confidence` (`utils/nlp_utils_enhanced.py`, 543–596)

The Python function computes five numeric factors and clamps the result with
`max(0, min(100, base_confidence - uncertainty_penalty))`.  `set(...)` on word
lists becomes `List.dedup`; `' '.join` becomes `String.intercalate " "`.
-/

/-- The `uncertainty_markers` list of `calculate_response_confidence`. -/
def uncertainty_markers : List String :=
  ["i\x27m not sure", "i don\x27t know", "i\x27m sorry",
   "might be", "could be", "possibly"]

/-- Shallow embedding of `calculate_response_confidence(question,
relevant_chunks, answer)`.  The internal `try/except` returning `50.0` is dead
in the embedding because every step is total. -/
def calculate_response_confidence (question : String)
    (relevant_chunks : List String) (answer : String) : ℚ :=
  if relevant_chunks = [] then 0
  else
    let chunk_factor : ℚ := min ((relevant_chunks.length : ℚ) / 3) 1 * 25
    let question_words := (pySplit (pyLower question)).dedup
    let chunk_words :=
      (pySplit (pyLower (pyJoin relevant_chunks))).dedup
    let overlap_ratio : ℚ :=
      if question_words ≠ [] then
        ((question_words.filter (fun w => w ∈ chunk_words)).length : ℚ) /
          (question_words.length : ℚ)
      else 0
    let semantic_factor : ℚ := overlap_ratio * 30
    let answer_length_factor : ℚ :=
      min (((pySplit answer).length : ℚ) / 20) 1 * 20
    let uncertainty_penalty : ℚ :=
      5 * ((uncertainty_markers.filter
        (fun m => strContains (pyLower answer) m)).length : ℚ)
    let question_specificity : ℚ :=
      min ((((pySplit question).filter (fun w => w.length > 3)).length : ℚ) / 5)
        1 * 25
    let base_confidence :=
      chunk_factor + semantic_factor + answer_length_factor +
        question_specificity
    max 0 (min 100 (base_confidence - uncertainty_penalty))

/-! ## `should_suggest_ticket` (`utils/nlp_utils_enhanced.py`, 846–862) -/

/-- Shallow embedding of `should_suggest_ticket(confidence, strategy_level,
consecutive_failures)`: returns `True` only when
`confidence < CONFIDENCE_THRESHOLDS['VERY_LOW']` (i.e. `confidence < 0`) and
`strategy_level >= 4` and `consecutive_failures >= 2`. -/
def should_suggest_ticket (confidence : ℚ) (strategy_level : ℕ)
    (consecutive_failures : ℕ) : Bool :=
  if confidence < THRESHOLD_VERY_LOW ∧ strategy_level ≥ 4 ∧
      consecutive_failures ≥ 2 then
    true
  else
    false

/-! ## Deterministic fallback embeddings
(`utils/fallback.py`, 17–41 and `utils/embedding_service.py`, 251–278)

Per text, the Python code runs

```
text_hash = hashlib.md5(text.encode()).hexdigest()
np.random.seed(int(text_hash, 16) % (2**32))
embedding = np.random.random(dimension).astype(np.float32)
embedding = embedding / np.linalg.norm(embedding)
```

MD5 and the Mersenne-Twister PRNG are external collaborators; `NumpyEnv`
models them abstractly.  `np.random.seed` replaces the global PRNG state with
a function of the seed alone, which is the whole source of the determinism
property: the pre-call PRNG state (threaded explicitly below) is dead.
Samples are exact rationals; the normalisation step is stated over `ℝ`.
-/

/-- Abstract model of `hashlib.md5` and the seeded global numpy PRNG. -/
structure NumpyEnv where
  /-- `int(hashlib.md5(text.encode()).hexdigest(), 16) % (2**32)`. -/
  md5Mod : String → ℕ
  /-- The MD5-derived seed is always below `2**32`. -/
  md5Mod_lt : ∀ s, md5Mod s < 2 ^ 32
  /-- `np.random.seed(k)`: the global PRNG state is replaced by a function of
  the seed alone. -/
  seed : ℕ → ℕ
  /-- `np.random.random(n)` evaluated from a PRNG state. -/
  draw : ℕ → ℕ → List ℚ
  /-- The PRNG state after drawing `n` samples. -/
  next : ℕ → ℕ → ℕ
  /-- `np.random.random(n)` returns exactly `n` samples. -/
  draw_length : ∀ g n, (draw g n).length = n

/-- Sum of squares of a rational vector (the square of `np.linalg.norm`). -/
def sumSq (v : List ℚ) : ℚ := (v.map (fun x => x * x)).sum

/-- Sum of squares of a real vector. -/
def sumSqR (v : List ℝ) : ℝ := (v.map (fun x => x * x)).sum

/-- `embedding / np.linalg.norm(embedding)`, over the reals. -/
noncomputable def l2normalize (v : List ℚ) : List ℝ :=
  v.map (fun x : ℚ => (x : ℝ) / Real.sqrt ((sumSq v : ℚ) : ℝ))

/-- The pre-normalisation sample vector for one text: seed the PRNG with the
text's MD5-derived hash, then draw `dimension` samples. -/
def rawEmbedding (env : NumpyEnv) (dimension : ℕ) (text : String) :
    List ℚ :=
  env.draw (env.seed (env.md5Mod text)) dimension

/-- Shallow embedding of `generate_fallback_embeddings(texts, dimension)`
(identically, `EmbeddingService._generate_fallback_embeddings`).  The second
component threads the global numpy PRNG state: each iteration overwrites it
via `np.random.seed` before drawing. -/
noncomputable def generate_fallback_embeddings (env : NumpyEnv)
    (dimension : ℕ) : List String → ℕ → List (List ℝ) × ℕ
  | [], g => ([], g)
  | t :: ts, _g =>
    let g1 := env.seed (env.md5Mod t)
    let v := env.draw g1 dimension
    let g2 := env.next g1 dimension
    let rest := generate_fallback_embeddings env dimension ts g2
    (l2normalize v :: rest.1, rest.2)

/-! ## `VectorDBService` (`utils/vector_db.py`)

The Qdrant client is an external collaborator.  Its state (the server's
collections) is modelled concretely; `QdrantOracle` injects the failures the
source distinguishes by inspecting `str(e)` (`"Vector dimension error"`,
pydantic validation keywords, anything else).  Similarity *ranking* is
abstracted — a successful `client.search` returns the filtered points in
storage order and scores them through an oracle function — because none of
the claims under study depend on score values or on result order; the local
FAISS path, whose distances are exact arithmetic, is modelled with real
squared-L2 distances and sorting.
-/

/-- Python exception classes distinguished by the string tests in
`vector_db.py`. -/
inductive PyErr where
  | dimError
  | validationErr
  | otherErr
deriving DecidableEq

/-- A Qdrant payload / metadata dict. -/
abbrev Payload := List (String × String)

/-- Association-list lookup (Python `d[k]` / `d.get(k)`). -/
def alookup {α : Type} (l : List (String × α)) (k : String) : Option α :=
  (l.find? (fun p => p.1 = k)).map Prod.snd

/-- Association-list update (Python `d[k] = v`: overwrite in place, else
append). -/
def aset {α : Type} (l : List (String × α)) (k : String) (v : α) :
    List (String × α) :=
  if (l.find? (fun p => p.1 = k)).isSome then
    l.map (fun p => if p.1 = k then (k, v) else p)
  else l ++ [(k, v)]

/-- Association-list removal (Python `del d[k]`). -/
def aremove {α : Type} (l : List (String × α)) (k : String) :
    List (String × α) :=
  l.filter (fun p => ¬p.1 = k)

/-- Lookup in a `ℕ`-indexed association list (the dimension cache, keyed in
the source by the string `f"{name}:{size}"`, modelled as the pair). -/
def dlookup (l : List ((String × ℕ) × Bool)) (k : String × ℕ) :
    Option Bool :=
  (l.find? (fun p => p.1 = k)).map Prod.snd

/-- Update of the dimension cache. -/
def dset (l : List ((String × ℕ) × Bool)) (k : String × ℕ) (v : Bool) :
    List ((String × ℕ) × Bool) :=
  if (l.find? (fun p => p.1 = k)).isSome then
    l.map (fun p => if p.1 = k then (k, v) else p)
  else l ++ [(k, v)]

/-- `payload.get(k)`. -/
def pget (p : Payload) (k : String) : Option String :=
  (p.find? (fun q => q.1 = k)).map Prod.snd

/-- `payload.pop(k, "")`: the removed value (default `""`) and the remaining
payload. -/
def ppopText (p : Payload) : String × Payload :=
  ((pget p "text").getD "", p.filter (fun q => ¬q.1 = "text"))

/-- A point matches a filter iff every `(key, value)` pair of the filter is
present in its payload (Qdrant `Filter(must=[FieldCondition(...)])`, and the
key-by-key test of the FAISS/fallback paths). -/
def payloadMatches (p : Payload) (f : List (String × String)) : Bool :=
  f.all (fun kv => pget p kv.1 = some kv.2)

/-- A stored Qdrant point. -/
structure QPoint where
  pid : ℕ
  vector : List ℚ
  payload : Payload
deriving DecidableEq

/-- A Qdrant collection: fixed vector dimension plus stored points. -/
structure QColl where
  dim : ℕ
  points : List QPoint
deriving DecidableEq

/-- The Qdrant server state: named collections. -/
abbrev QdrantDB := List (String × QColl)

/-- A local FAISS index (`IndexFlatL2`). -/
structure FaissIndex where
  dim : ℕ
  vectors : List (List ℚ)
deriving DecidableEq

/-- Failure injection and score reporting for the Qdrant client. -/
structure QdrantOracle where
  /-- Injected failure of `client.search` (`none`: the server computes). -/
  searchErr : Option PyErr
  /-- Injected failure of `client.get_collection`. -/
  getCollErr : Option PyErr
  /-- Whether `client.delete_collection` succeeds. -/
  deleteOk : Bool
  /-- Whether `client.create_collection` succeeds. -/
  createOk : Bool
  /-- Whether the upsert of the batch starting at the given index
  succeeds. -/
  upsertOk : ℕ → Bool
  /-- The similarity score the server reports for a hit (ranking is
  abstracted; no claim depends on it). -/
  score : List ℚ → List ℚ → ℚ

/-- The mutable state of `VectorDBService`. -/
structure VDBState where
  /-- `self.use_qdrant`. -/
  use_qdrant : Bool
  /-- Whether the optional `faiss` import succeeded (`FAISS_AVAILABLE`). -/
  faiss_available : Bool
  /-- `self.collections` (the service's mirror of collection names). -/
  collections : List String
  /-- The Qdrant server content. -/
  server : QdrantDB
  /-- `self.indexes` (FAISS mode). -/
  indexes : List (String × FaissIndex)
  /-- `self.text_stores`. -/
  text_stores : List (String × List String)
  /-- `self.metadata_stores`. -/
  metadata_stores : List (String × List Payload)
  /-- `self.collection_dimension_cache`. -/
  dim_cache : List ((String × ℕ) × Bool)
deriving DecidableEq

/-- `client.search`. -/
def clientSearch (server : QdrantDB) (orc : QdrantOracle) (name : String)
    (qvec : List ℚ) (limit : ℕ)
    (filter_dict : Option (List (String × String))) :
    Except PyErr (List QPoint) :=
  match orc.searchErr with
  | some e => .error e
  | none =>
    match alookup server name with
    | none => .error .otherErr
    | some coll =>
      if qvec.length ≠ coll.dim then .error .dimError
      else
        let base : List QPoint :=
          match filter_dict with
          | some f =>
            coll.points.filter (fun p => payloadMatches p.payload f)
          | none => coll.points
        .ok (base.take limit)

/-- `client.get_collection`. -/
def clientGetColl (server : QdrantDB) (orc : QdrantOracle) (name : String) :
    Except PyErr QColl :=
  match orc.getCollErr with
  | some e => .error e
  | none =>
    match alookup server name with
    | none => .error .otherErr
    | some c => .ok c

/-- `client.delete_collection`. -/
def clientDelete (server : QdrantDB) (orc : QdrantOracle) (name : String) :
    Except PyErr QdrantDB :=
  if orc.deleteOk then .ok (aremove server name) else .error .otherErr

/-- `client.create_collection` (raises on an already-existing name). -/
def clientCreate (server : QdrantDB) (orc : QdrantOracle) (name : String)
    (dim : ℕ) : Except PyErr QdrantDB :=
  if orc.createOk then
    match alookup server name with
    | some _ => .error .otherErr
    | none => .ok (aset server name ⟨dim, []⟩)
  else .error .otherErr

/-- Shallow embedding of `VectorDBService.create_collection` (113–198).
Disk persistence of FAISS indexes is an environment effect outside the
model: loading an index from disk is modelled as starting fresh. -/
def create_collection (st : VDBState) (orc : QdrantOracle) (name : String)
    (vector_size : ℕ) : VDBState × Bool :=
  if st.use_qdrant then
    if name ∈ st.collections then (st, true)
    else
      match clientCreate st.server orc name vector_size with
      | .ok server' =>
        ({st with server := server', collections := name :: st.collections},
          true)
      | .error _ => (st, false)
  else
    if st.faiss_available then
      match alookup st.indexes name with
      | some _ => (st, true)
      | none =>
        ({st with
          indexes := aset st.indexes name ⟨vector_size, []⟩
          metadata_stores := aset st.metadata_stores name []
          text_stores := aset st.text_stores name []}, true)
    else
      match alookup st.text_stores name with
      | some _ => (st, true)
      | none =>
        ({st with
          text_stores := aset st.text_stores name []
          metadata_stores := aset st.metadata_stores name []}, true)

/-- The dimension-compatibility preamble of `add_documents` (Qdrant branch,
lines 224–309).  An `.error` value is an exception that escapes to the
method's outer `except`, carrying the state at the moment of the raise. -/
def ensureDims (st : VDBState) (orc : QdrantOracle) (name : String)
    (dim : ℕ) : Except (VDBState × PyErr) VDBState :=
  if name ∈ st.collections then
    match dlookup st.dim_cache (name, dim) with
    | some true => .ok st
    | some false =>
      -- cached incompatibility: delete + recreate, errors swallowed
      match clientDelete st.server orc name with
      | .error _ => .ok st
      | .ok server' =>
        let st1 := {st with
          server := server'
          collections := st.collections.erase name}
        let st2 := (create_collection st1 orc name dim).1
        .ok {st2 with dim_cache := dset st2.dim_cache (name, dim) true}
    | none =>
      match clientGetColl st.server orc name with
      | .ok coll =>
        if coll.dim ≠ dim then
          -- dimension mismatch: the delete call here is unprotected
          match clientDelete st.server orc name with
          | .error e => .error (st, e)
          | .ok server' =>
            let st1 := {st with
              server := server'
              collections := st.collections.erase name}
            let st2 := (create_collection st1 orc name dim).1
            .ok {st2 with dim_cache := dset st2.dim_cache (name, dim) true}
        else .ok {st with dim_cache := dset st.dim_cache (name, dim) true}
      | .error e =>
        if e = .validationErr then
          -- probe with a dummy vector of the incoming dimension
          match clientSearch st.server orc name (List.replicate dim 0) 1
            none with
          | .ok _ =>
            .ok {st with dim_cache := dset st.dim_cache (name, dim) true}
          | .error e2 =>
            if e2 = .dimError then
              let st1 :=
                match clientDelete st.server orc name with
                | .ok server' => {st with server := server'}
                | .error _ => st
              let st2 := {st1 with
                collections := st1.collections.erase name}
              let st3 := (create_collection st2 orc name dim).1
              .ok {st3 with dim_cache := dset st3.dim_cache (name, dim) true}
            else .ok st -- could not test compatibility: not cached
        else
          -- non-validation introspection failure: recreate
          let st1 :=
            match clientDelete st.server orc name with
            | .ok server' => {st with server := server'}
            | .error _ => st
          let st2 := {st1 with collections := st1.collections.erase name}
          let st3 := (create_collection st2 orc name dim).1
          .ok {st3 with dim_cache := dset st3.dim_cache (name, dim) true}
  else
    let st1 := (create_collection st orc name dim).1
    .ok {st1 with dim_cache := dset st1.dim_cache (name, dim) true}

/-- Split a list into batches of `n` (`range(0, total, batch_size)` slices),
each tagged with its start index. -/
def toBatchesFrom {α : Type} (n : ℕ) : ℕ → List α → List (ℕ × List α)
  | _, [] => []
  | i, x :: xs =>
    if n = 0 then []
    else (i, (x :: xs).take n) :: toBatchesFrom n (i + n) ((x :: xs).drop n)
termination_by _ l => l.length
decreasing_by
  simp only [List.length_drop, List.length_cons]
  omega

/-- The per-batch upsert loop: a failing batch is skipped, successful ones
commit.  Returns the server state and the number of successful batches. -/
def upsertLoop (orc : QdrantOracle) (name : String) :
    List (ℕ × List QPoint) → QdrantDB → QdrantDB × ℕ
  | [], server => (server, 0)
  | (bstart, pts) :: rest, server =>
    match (if orc.upsertOk bstart then
        match alookup server name with
        | some coll =>
          Except.ok (aset server name ⟨coll.dim, coll.points ++ pts⟩)
        | none => Except.error PyErr.otherErr
      else Except.error PyErr.otherErr) with
    | .ok server' =>
      let r := upsertLoop orc name rest server'
      (r.1, r.2 + 1)
    | .error _ => upsertLoop orc name rest server

/-- The points built for the upsert: ids start at the collection's current
count, the text is stored under the `"text"` payload key. -/
def buildPoints (start_id : ℕ) (texts : List String)
    (embeddings : List (List ℚ)) (metadatas : List Payload) : List QPoint :=
  (List.zip texts (List.zip embeddings metadatas)).enum.map
    (fun ie => ⟨start_id + ie.1, ie.2.2.1, aset ie.2.2.2 "text" ie.2.1⟩)

/-- The `except` fallback of `add_documents` (405–420): texts and metadata
are appended to the in-memory stores. -/
def addFallbackStorage (st : VDBState) (name : String) (texts : List String)
    (metadatas : List Payload) : VDBState :=
  let oldTexts := (alookup st.text_stores name).getD []
  let oldMeta := (alookup st.metadata_stores name).getD []
  let zipped := List.zip texts metadatas
  {st with
    text_stores := aset st.text_stores name
      (oldTexts ++ zipped.map Prod.fst)
    metadata_stores := aset st.metadata_stores name
      (oldMeta ++ zipped.map (fun tm => aset tm.2 "text" tm.1))}

/-- Shallow embedding of `VectorDBService.add_documents` (200–420) with
`batch_size = 100`.  The method returns `True` on every path (the outer
`except` degrades to `addFallbackStorage` and still returns `True`). -/
def add_documents (st : VDBState) (orc : QdrantOracle) (name : String)
    (texts : List String) (embeddings : List (List ℚ))
    (metadatas : List Payload) : VDBState × Bool :=
  if st.use_qdrant then
    match embeddings with
    | [] =>
      -- `embeddings[0]` raises IndexError → outer except
      (addFallbackStorage st name texts metadatas, true)
    | e0 :: _ =>
      match ensureDims st orc name e0.length with
      | .error se => (addFallbackStorage se.1 name texts metadatas, true)
      | .ok st1 =>
        let start_id :=
          match clientGetColl st1.server orc name with
          | .ok c => c.points.length
          | .error _ => 0
        let batches := toBatchesFrom 100 0
          (buildPoints start_id texts embeddings metadatas)
        let r := upsertLoop orc name batches st1.server
        let st2 := {st1 with server := r.1}
        if r.2 = 0 then
          -- "All batches failed" is raised → outer except
          (addFallbackStorage st2 name texts metadatas, true)
        else (st2, true)
  else
    -- local FAISS branch: no dimension check at all
    match embeddings with
    | [] => (addFallbackStorage st name texts metadatas, true)
    | e0 :: _ =>
      let st1 := if (alookup st.indexes name).isSome then st
        else (create_collection st orc name e0.length).1
      match alookup st1.indexes name with
      | none => (addFallbackStorage st1 name texts metadatas, true)
      | some idx =>
        if embeddings.all (fun e => e.length = idx.dim) then
          match alookup st1.metadata_stores name with
          | none =>
            -- KeyError on metadata append → outer except
            (addFallbackStorage
              {st1 with
                indexes := aset st1.indexes name
                  ⟨idx.dim, idx.vectors ++ embeddings⟩}
              name texts metadatas, true)
          | some oldMeta =>
            let zipped := List.zip texts metadatas
            ({st1 with
              indexes := aset st1.indexes name
                ⟨idx.dim, idx.vectors ++ embeddings⟩
              metadata_stores := aset st1.metadata_stores name
                (oldMeta ++ zipped.map (fun tm => aset tm.2 "text" tm.1))
              text_stores := aset st1.text_stores name
                ((alookup st1.text_stores name).getD [] ++
                  zipped.map Prod.fst)}, true)
        else
          -- faiss `add` asserts the dimension: exception → outer except
          (addFallbackStorage st1 name texts metadatas, true)

/-- A search hit as returned by `VectorDBService.search`. -/
structure Hit where
  text : String
  metadata : Payload
  score : ℚ
deriving DecidableEq

/-- Shallow embedding of `VectorDBService._fallback_text_search`
(559–627). -/
def fallback_text_search (st : VDBState) (name : String) (top_k : ℕ)
    (filter_dict : Option (List (String × String))) : List Hit :=
  match alookup st.text_stores name with
  | none => []
  | some texts =>
    if texts = [] then []
    else
      (List.range (min top_k texts.length)).filterMap (fun idx =>
        let metadata :=
          match alookup st.metadata_stores name with
          | some ms => if idx < ms.length then ms.getD idx [] else []
          | none => []
        match filter_dict with
        | some f =>
          if metadata ≠ [] ∧ ¬payloadMatches metadata f then none
          else
            let tp := if metadata ≠ [] then ppopText metadata else ("", [])
            some ⟨if tp.1 = "" ∧ idx < texts.length then texts.getD idx ""
              else tp.1, tp.2, 1 / 2⟩
        | none =>
          let tp := if metadata ≠ [] then ppopText metadata else ("", [])
          some ⟨if tp.1 = "" ∧ idx < texts.length then texts.getD idx ""
            else tp.1, tp.2, 1 / 2⟩)

/-- Squared L2 distance (what FAISS `IndexFlatL2.search` reports). -/
def sqDist (a b : List ℚ) : ℚ :=
  ((List.zip a b).map (fun p => (p.1 - p.2) * (p.1 - p.2))).sum

/-- Insertion into a distance-ascending list. -/
def insertByDist (x : ℕ × ℚ) : List (ℕ × ℚ) → List (ℕ × ℚ)
  | [] => [x]
  | y :: ys => if x.2 ≤ y.2 then x :: y :: ys else y :: insertByDist x ys

/-- Stable sort by ascending distance. -/
def sortByDist : List (ℕ × ℚ) → List (ℕ × ℚ)
  | [] => []
  | x :: xs => insertByDist x (sortByDist xs)

/-- The FAISS nearest-neighbour result: indices of the `k` closest stored
vectors with their squared distances, ascending. -/
def faissSearch (idx : FaissIndex) (qvec : List ℚ) (k : ℕ) :
    List (ℕ × ℚ) :=
  (sortByDist (idx.vectors.enum.map (fun iv => (iv.1, sqDist qvec iv.2)))).take
    k

/-- Shallow embedding of `VectorDBService.search` (422–557).  The result
type records that a Python method may raise; the claim C1 theorem shows the
error case never occurs. -/
def search (st : VDBState) (orc : QdrantOracle) (name : String)
    (qvec : List ℚ) (top_k : ℕ)
    (filter_dict : Option (List (String × String))) :
    Except PyErr (List Hit) :=
  if st.use_qdrant then
    if name ∉ st.collections then .ok []
    else
      match clientSearch st.server orc name qvec top_k filter_dict with
      | .ok pts =>
        .ok (pts.map (fun p =>
          ⟨(ppopText p.payload).1, (ppopText p.payload).2,
            orc.score qvec p.vector⟩))
      | .error _ =>
        -- a dimension error falls back directly; any other error is
        -- re-raised and caught by the outer `except`, which also falls back
        .ok (fallback_text_search st name top_k filter_dict)
  else
    match alookup st.indexes name with
    | none => .ok []
    | some idx =>
      if idx.vectors.length > 0 then
        if qvec.length ≠ idx.dim then
          -- faiss raises on a dimension mismatch → text fallback
          .ok (fallback_text_search st name top_k filter_dict)
        else
          match alookup st.metadata_stores name with
          | none =>
            -- KeyError in the result loop → text fallback
            .ok (fallback_text_search st name top_k filter_dict)
          | some ms =>
            .ok ((faissSearch idx qvec
                (min top_k idx.vectors.length)).filterMap (fun id_d =>
              if id_d.1 < ms.length then
                let metadata := ms.getD id_d.1 []
                match filter_dict with
                | some f =>
                  if ¬payloadMatches metadata f then none
                  else some ⟨(ppopText metadata).1, (ppopText metadata).2,
                    1 / (1 + id_d.2)⟩
                | none =>
                  some ⟨(ppopText metadata).1, (ppopText metadata).2,
                    1 / (1 + id_d.2)⟩
              else none))
      else
        -- empty index: ValueError → text fallback
        .ok (fallback_text_search st name top_k filter_dict)

/-- `search`, as the total function its callers can rely on (claim C1 shows
the `.error` case of the faithful embedding is unreachable; the caller
`retrieve_relevant_context` additionally catches any exception and returns
`[]`). -/
def searchTotal (st : VDBState) (orc : QdrantOracle) (name : String)
    (qvec : List ℚ) (top_k : ℕ)
    (filter_dict : Option (List (String × String))) : List Hit :=
  match search st orc name qvec top_k filter_dict with
  | .ok l => l
  | .error _ => []

/-- The result of `get_collection_info`. -/
structure CollInfo where
  exists' : Bool
  vector_size : ℕ
  points_count : ℕ
deriving DecidableEq

/-- Shallow embedding of `VectorDBService.get_collection_info` (660–757). -/
def get_collection_info (st : VDBState) (orc : QdrantOracle)
    (name : String) : CollInfo :=
  if st.use_qdrant then
    if name ∈ st.collections then
      match clientGetColl st.server orc name with
      | .ok c => ⟨true, c.dim, c.points.length⟩
      | .error e =>
        if e = .validationErr then
          match clientSearch st.server orc name (List.replicate 384 0) 1
            none with
          | .ok _ => ⟨true, 384, 0⟩
          | .error e2 =>
            if e2 = .dimError then
              match clientSearch st.server orc name (List.replicate 768 0) 1
                none with
              | .ok _ => ⟨true, 768, 0⟩
              | .error _ => ⟨true, 0, 0⟩
            else ⟨false, 0, 0⟩
        else
          -- re-raised, caught by the outer except → exists False
          ⟨false, 0, 0⟩
    else ⟨false, 0, 0⟩
  else
    match alookup st.indexes name with
    | some idx => ⟨true, idx.dim, idx.vectors.length⟩
    | none =>
      match alookup st.text_stores name with
      | some texts => ⟨true, 384, texts.length⟩
      | none => ⟨false, 0, 0⟩

/-- Shallow embedding of `VectorDBService.delete_collection` (629–658). -/
def delete_collection (st : VDBState) (orc : QdrantOracle) (name : String) :
    VDBState × Bool :=
  if st.use_qdrant then
    if name ∈ st.collections then
      match clientDelete st.server orc name with
      | .error _ => (st, false)
      | .ok server' =>
        ({st with
          server := server'
          collections := st.collections.erase name
          metadata_stores := aremove st.metadata_stores name
          text_stores := aremove st.text_stores name}, true)
    else
      ({st with
        metadata_stores := aremove st.metadata_stores name
        text_stores := aremove st.text_stores name}, true)
  else
    if (alookup st.indexes name).isSome then
      ({st with
        indexes := aremove st.indexes name
        metadata_stores := aremove st.metadata_stores name
        text_stores := aremove st.text_stores name}, true)
    else (st, true)

/-- A benign oracle: no injected failures, every upsert succeeds, constant
scores. -/
def okOracle : QdrantOracle :=
  ⟨none, none, true, true, fun _ => true, fun _ _ => 0⟩

/-- Local-backend state used to refute claim C2: the FAISS index of
collection `"t1"` holds one 2-dimensional vector whose text is
`"old text"`. -/
def cexVDB : VDBState where
  use_qdrant := false
  faiss_available := true
  collections := []
  server := []
  indexes := [("t1", ⟨2, [[1, 0]]⟩)]
  text_stores := [("t1", ["old text"])]
  metadata_stores := [("t1", [[("text", "old text"), ("chatbot_id", "t1")]])]
  dim_cache := []

/-- Qdrant-backend state used to witness the amended claim C2: collection
`"t1"` holds one 2-dimensional point. -/
def cexVDBQ : VDBState where
  use_qdrant := true
  faiss_available := false
  collections := ["t1"]
  server := [("t1", ⟨2, [⟨0, [1, 0], [("text", "old text")]⟩]⟩)]
  indexes := []
  text_stores := []
  metadata_stores := []
  dim_cache := []

/-- A degenerate but well-formed `NumpyEnv` used to instantiate
hypothesis-bearing theorems about the fallback embedding generator. -/
def constNumpyEnv : NumpyEnv where
  md5Mod := fun _ => 0
  md5Mod_lt := fun _ => by norm_num
  seed := id
  draw := fun _ n => List.replicate n 1
  next := fun g _ => g
  draw_length := fun _ n => List.length_replicate n 1

/-! ## `ChatbotService.get_answer` (`services/chatbot_service.py`, 236–320;
claim C6)

The Flask/SQLAlchemy collaborators (chatbot lookup, conversation-message
query, `uuid.uuid4`, and `get_enhanced_answer` as seen from the service)
are the `ChatbotEnv` oracle; wall-clock timing fields are external effects
and not part of the cached value.  The answer cache `cache['get']` /
`cache['set']` keyed by `generate_key('chatbot_answer', chatbot_id,
question)` is an association list from `(chatbot_id, question)` to the
stored result paired with the TTL it was stored with.
-/

/-- `ANSWER_TTL` (`chatbot_service.py`, line 29). -/
def ANSWER_TTL : ℕ := 300

/-- The `result` dict built by `get_answer` (minus the wall-clock
`processing_time_ms` field). -/
structure AnswerResult where
  answer : String
  conversation_id : String
deriving DecidableEq

/-- The answer cache. -/
abbrev AnswerCache := List ((String × String) × (AnswerResult × ℕ))

/-- `cache['get']` on the answer cache. -/
def cacheGet (c : AnswerCache) (k : String × String) :
    Option (AnswerResult × ℕ) :=
  match c with
  | [] => none
  | (k2, v) :: rest => if k2 = k then some v else cacheGet rest k

/-- `cache['set']` on the answer cache. -/
def cacheSet (c : AnswerCache) (k : String × String)
    (v : AnswerResult × ℕ) : AnswerCache :=
  match c with
  | [] => [(k, v)]
  | (k2, v2) :: rest =>
    if k2 = k then (k2, v) :: rest else (k2, v2) :: cacheSet rest k v

/-- Python truthiness of the optional `conversation_id` argument. -/
def pyTruthyOpt : Option String → Bool
  | none => false
  | some s => s ≠ ""

/-- External collaborators of `ChatbotService.get_answer`: `uuid.uuid4()`
(always a non-empty string), `ChatbotService.get_chatbot` (`none` = not
found, otherwise the chatbot's `data`), the conversation-message query
(per conversation id, newest first, limited to 5 by the DB), and
`get_enhanced_answer` as called with `(chatbot.data, question, history)`
— the service-level claim C6 holds for any answer function. -/
structure ChatbotEnv where
  uuid : String
  uuid_nonempty : uuid ≠ ""
  chatbot_data : Option String
  messages : String → List (String × String)
  enhanced : String → String → Option (List (String × String)) → String

/-- The outcome of `get_answer`: a stateless cache hit returns the stored
result, a missing chatbot returns the error dict, otherwise the freshly
built result. -/
inductive GetAnswerOutcome where
  | cached (r : AnswerResult)
  | notFound
  | fresh (r : AnswerResult)
deriving DecidableEq

/-- The conversation-history formatting of `get_answer` (261–273): `None`
when the message query is empty, else role-tagged contents by parity over
the chronologically reordered messages. -/
def buildHistory (messages : List (String × String)) :
    Option (List (String × String)) :=
  if messages = [] then none
  else some (messages.reverse.enum.map (fun im =>
    (if im.1 % 2 = 0 then "user" else "assistant",
     if im.1 % 2 = 0 then im.2.1 else im.2.2)))

/-- The body of `get_answer` after the stateless cache probe (251–312).
`conversation_id` is reassigned to a fresh uuid4 when absent (257–258)
before the cache-write guard `if not conversation_id:` (311–312) runs. -/
def get_answer_body (env : ChatbotEnv) (c : AnswerCache)
    (chatbot_id question : String) (conversation_id : Option String) :
    GetAnswerOutcome × AnswerCache :=
  match env.chatbot_data with
  | none => (.notFound, c)
  | some data =>
    let conv_id : String :=
      if pyTruthyOpt conversation_id = false then env.uuid
      else conversation_id.getD ""
    let history := buildHistory (env.messages conv_id)
    let answer := env.enhanced data question history
    let result : AnswerResult := ⟨answer, conv_id⟩
    if conv_id = "" then
      (.fresh result, cacheSet c (chatbot_id, question) (result, ANSWER_TTL))
    else (.fresh result, c)

/-- Shallow embedding of `ChatbotService.get_answer` (236–320). -/
def get_answer (env : ChatbotEnv) (c : AnswerCache)
    (chatbot_id question : String) (conversation_id : Option String) :
    GetAnswerOutcome × AnswerCache :=
  if pyTruthyOpt conversation_id = false then
    match cacheGet c (chatbot_id, question) with
    | some rv => (.cached rv.1, c)
    | none => get_answer_body env c chatbot_id question conversation_id
  else get_answer_body env c chatbot_id question conversation_id

/-! ## The enhanced answer pipeline
(`utils/nlp_utils_enhanced.py`, 377–1040; claims C7 and C8)

External collaborators (the embedding service, the Groq client, difflib's
`SequenceMatcher.ratio`, `random`, the response formatter and
`parse_chatbot_data`) are the `NLPEnv` oracle.  The `@cached` decorators
read/write a single key per call here, so each is an `Option`-valued cache
slot in `NLPCaches`.  The retrieval side effects claim C7 talks about are
made observable as an `NLPEffect` trace.
-/

/-- A conversation turn: role and content. -/
abbrev Turn := String × String

/-- A parsed document (`parse_chatbot_data` output entry); only the `text`
field is read downstream. -/
structure PDoc where
  filename : String
  text : String
deriving DecidableEq

/-- The `parsed_data` dict: pdf and folder entries plus the contents of
`web_data['sections']`. -/
structure ParsedData where
  pdf_data : List PDoc
  folder_data : List PDoc
  web_sections : List (List String)
deriving DecidableEq

/-- `all_content` as collected by `get_enhanced_answer` (918–935). -/
def collectAllContent (pd : ParsedData) : List String :=
  pd.pdf_data.filterMap (fun d => if d.text ≠ "" then some d.text else none)
    ++ pd.folder_data.filterMap
      (fun d => if d.text ≠ "" then some d.text else none)
    ++ pd.web_sections.flatten.filterMap
      (fun cnt => if cnt ≠ "" then some cnt else none)

/-- Observable retrieval effects of the pipeline (what claim C7 says a
greeting must not trigger). -/
inductive NLPEffect where
  | embedCall (question : String)
  | vectorSearch (collection : String)
deriving DecidableEq

/-- The strategy dict returned by `generate_enhanced_fallback_response`. -/
structure FallbackResponse where
  answer : String
  confidence : ℚ
  strategy_level : ℕ
  response_type : String

/-- The cache slots of the `@cached` wrappers one `get_enhanced_answer`
call can touch (each at a single key): the final-answer cache (`'answer'`),
`'context'`, `'llm_answer'` and `'enhanced_fallback'`. -/
structure NLPCaches where
  answerCache : Option String
  contextCache : Option (List String)
  llmCache : Option String
  fallbackCache : Option FallbackResponse

/-- External collaborators of the pipeline.  `groq = none` models an
unconfigured `groq_client`; the LLM answer is a function of the question,
the context chunks and the (trimmed) history — prompt assembly is folded
into it.  `shuffle` covers both the unspecified `set` iteration order and
`random.shuffle`; `choice` is `random.choice`; `fmt` is
`response_formatter.format_response(question, answer,
confidence)['answer']` (the formatter never appends uncertainty notes);
`preprocess` is the outcome of `preprocess_and_index_data`: success flag,
failure message, and the vector store it leaves behind. -/
structure NLPEnv where
  embed : String → List ℚ
  groq : Option (String → List String → Option (List Turn) → String)
  seqRatio : String → String → ℚ
  shuffle : List String → List String
  choice : List String → String
  fmt : String → String → ℚ → String
  parse : Option ParsedData
  preprocess : Bool × String × VDBState
  orc : QdrantOracle

/-- Shallow embedding of `retrieve_relevant_context` (377–415) together
with its observable effects; the `@cached('context')` wrapper is the
`ctxCache` argument (a hit performs no embedding and no search).  The
embedding call and `search` are total here, so the `except` returning `[]`
is dead. -/
def retrieve_relevant_context (env : NLPEnv) (vdb : VDBState)
    (ctxCache : Option (List String)) (question chatbot_id : String)
    (top_k : ℕ) : List String × List NLPEffect :=
  match ctxCache with
  | some chunks => (chunks, [])
  | none =>
    let qvec := env.embed question
    let r1 := searchTotal vdb env.orc chatbot_id qvec top_k
      (some [("chatbot_id", chatbot_id)])
    if r1 = [] then
      let r2 := searchTotal vdb env.orc chatbot_id qvec top_k none
      (r2.map Hit.text,
        [.embedCall question, .vectorSearch chatbot_id,
         .vectorSearch chatbot_id])
    else
      (r1.map Hit.text, [.embedCall question, .vectorSearch chatbot_id])

/-- Shallow embedding of `generate_fallback_answer` (519–541). -/
def generate_fallback_answer (question : String) (context : List String) :
    String :=
  if context = [] then
    "I don\x27t have enough information to answer that question. Could you try rephrasing or asking about something else?"
  else
    let response :=
      "Based on the information available, I can provide this answer: " ++
        context.headD ""
    if response.length > 500 then pySlice response 0 497 ++ "..."
    else response

/-- Shallow embedding of `generate_answer_with_llm` (437–517); the
`@cached('llm_answer')` wrapper is `llmCache`.  Context truncation at
12000 characters and the system prompt are part of the input to the
external LLM; the history is trimmed to its last 8 turns as in the source.
An LLM exception would fall back to `generate_fallback_answer`; the
abstract client is total, so that branch is dead here. -/
def generate_answer_with_llm (env : NLPEnv) (llmCache : Option String)
    (question : String) (context : List String)
    (conversation_history : Option (List Turn)) : String :=
  match llmCache with
  | some a => a
  | none =>
    match env.groq with
    | none => generate_fallback_answer question context
    | some llm =>
      if context = [] then
        "I don\x27t have enough information to answer that question. Could you try rephrasing or asking about something else?"
      else
        let trimmed : Option (List Turn) :=
          match conversation_history with
          | some h =>
            if h.length > 8 then some (h.drop (h.length - 8)) else some h
          | none => none
        pyStrip (llm question context trimmed)

/-- The stop-word set of `extract_topic_keywords` (659–663). -/
def stop_words : List String :=
  ["what", "how", "when", "where", "why", "who", "which", "can", "could",
   "would", "should", "do", "does", "did", "is", "are", "was", "were",
   "the", "a", "an", "and", "or", "but", "in", "on", "at", "to", "for",
   "of", "with", "by", "from", "up", "about", "into", "through", "during"]

/-- Order-preserving first-occurrence deduplication (the
`unique_keywords` loop of `extract_topic_keywords`). -/
def firstDedup : List String → List String → List String
  | [], _ => []
  | w :: rest, seen =>
    if w ∈ seen then firstDedup rest seen
    else w :: firstDedup rest (w :: seen)

/-- Shallow embedding of `extract_topic_keywords` (648–678): the matches
of `\b\w{3,}\b` on the lowered question (maximal word-character runs of
length at least 3), minus stop words, first occurrences only, first 5. -/
def extract_topic_keywords (question : String) : List String :=
  let words := (runsBy pyIsWordChar (pyLower question).toList []).filter
    (fun w => 3 ≤ w.length)
  let keywords := words.filter (fun w => w ∉ stop_words)
  (firstDedup keywords []).take 5

/-- Shallow embedding of `generate_clarifying_questions` (680–708). -/
def generate_clarifying_questions (keywords : List String) : List String :=
  match keywords with
  | [] => []
  | k0 :: restKW =>
    let base :=
      ["Are you looking for information about " ++ k0 ++ " specifically?",
       "When you mention " ++ k0 ++ ", do you mean " ++ k0 ++
         " in general or something specific?",
       "Could you tell me more about what aspect of " ++ k0 ++
         " you\x27re interested in?",
       "Are you trying to " ++ k0 ++ " or learn about " ++ k0 ++ "?"]
    let withPair :=
      match restKW with
      | [] => base
      | k1 :: _ =>
        base ++ ["Are you asking about " ++ k0 ++ " or " ++ k1 ++ "?",
                 "Do you need help with " ++ k0 ++ " and " ++ k1 ++
                   " together?"]
    withPair.take 3

/-- Shallow embedding of `generate_alternative_suggestions` (710–739);
`list(set(...))` followed by `random.shuffle` is the single external
permutation `env.shuffle`. -/
def generate_alternative_suggestions (env : NLPEnv)
    (keywords : List String) : List String :=
  if keywords = [] then []
  else
    let suggestions := (keywords.take 3).flatMap (fun k =>
      ["Getting started with " ++ k,
       "Common " ++ k ++ " issues",
       "How to configure " ++ k,
       "Best practices for " ++ k,
       "Troubleshooting " ++ k])
    (env.shuffle suggestions.dedup).take 4

/-- One entry of `find_partial_matches`' result list. -/
structure PartialMatch where
  content : String
  similarity : ℚ
  word_overlap : ℚ

/-- Insertion into a similarity-descending list (stable, matching Python's
`sort(key=..., reverse=True)`). -/
def insertBySimDesc (x : PartialMatch) :
    List PartialMatch → List PartialMatch
  | [] => [x]
  | y :: ys =>
    if y.similarity ≤ x.similarity then x :: y :: ys
    else y :: insertBySimDesc x ys

/-- Stable sort by descending similarity. -/
def sortBySimDesc : List PartialMatch → List PartialMatch
  | [] => []
  | x :: xs => insertBySimDesc x (sortBySimDesc xs)

/-- Shallow embedding of `find_partial_matches` (598–647); float literals
`0.4`, `0.6`, `0.3` are the exact rationals `4/10`, `6/10`, `3/10`. -/
def find_partial_matches (env : NLPEnv) (question : String)
    (all_content : List String) (threshold : ℚ) : List PartialMatch :=
  if all_content = [] then []
  else
    let ql := pyLower question
    let ms := all_content.filterMap (fun content =>
      if content = "" ∨ (pyStrip content).length < 10 then none
      else
        let cl := pyLower content
        let similarity := env.seqRatio ql cl
        let question_words := (pySplit ql).dedup
        let content_words := (pySplit cl).dedup
        let word_overlap : ℚ :=
          if question_words ≠ [] then
            ((question_words.filter
              (fun w => w ∈ content_words)).length : ℚ) /
              (question_words.length : ℚ)
          else 0
        let combined := similarity * (4 / 10) + word_overlap * (6 / 10)
        if threshold ≤ combined then some ⟨content, combined, word_overlap⟩
        else none)
    (sortBySimDesc ms).take 3

/-- The disclaimer `generate_enhanced_fallback_response` appends in its
MEDIUM branch (772). -/
def uncertainty_note : String :=
  "\n\n*Please note: This information is based on available content and may not be complete. Feel free to ask for clarification if needed.*"

/-- The Level-3 `rephrasing_suggestions` list (820–825). -/
def rephrasing_suggestions : List String :=
  ["Could you rephrase your question? I want to make sure I understand correctly.",
   "Let me suggest trying a different approach - could you describe what you\x27re trying to accomplish?",
   "I\x27d like to help you better. Could you provide more context about what you\x27re looking for?",
   "Maybe we can approach this differently. What specific problem are you trying to solve?"]

/-- Levels 1–3 of `generate_enhanced_fallback_response` (the code after
the confident-draft block, 781–835). -/
def fallbackLevels (env : NLPEnv) (question : String)
    (all_content : List String) : FallbackResponse :=
  let pms :=
    if all_content = [] then []
    else find_partial_matches env question all_content (3 / 10)
  match pms with
  | m0 :: _ =>
    let match_content :=
      if m0.content.length > 300 then pySlice m0.content 0 300 ++ "..."
      else m0.content
    ⟨"I found some related information that might help:\n\n" ++
       match_content ++
       "\n\nIs this what you were looking for, or would you like me to search for something more specific?",
     m0.similarity * 60, 1, "partial_match"⟩
  | [] =>
    let keywords := extract_topic_keywords question
    if keywords ≠ [] then
      let alternatives := generate_alternative_suggestions env keywords
      let clarifying := generate_clarifying_questions keywords
      let parts : List String :=
        ["I want to help you find the right information. "] ++
        (if alternatives.isEmpty then [] else
          ["Here are some related topics that might be relevant:\n"] ++
          alternatives.enum.map (fun ia =>
            toString (ia.1 + 1) ++ ". " ++ ia.2 ++ "\n") ++ ["\n"]) ++
        (if clarifying.isEmpty then [] else
          ["To better assist you, could you help me understand:\n",
           "• " ++ clarifying.headD ""])
      ⟨String.join parts, 35, 2, "alternatives_and_clarification"⟩
    else
      ⟨env.choice rephrasing_suggestions ++
         "\n\nAlternatively, you could try searching for broader topics or breaking down your question into smaller parts.",
       25, 3, "rephrasing_suggestion"⟩

/-- Shallow embedding of `generate_enhanced_fallback_response` (741–844);
the `@cached('enhanced_fallback')` wrapper is `fbCache`.  The `except`
Level-4 branch is dead in the embedding because every step is total. -/
def generate_enhanced_fallback_response (env : NLPEnv)
    (fbCache : Option FallbackResponse) (llmCache : Option String)
    (question : String) (relevant_chunks : List String)
    (all_content : List String)
    (conversation_history : Option (List Turn)) : FallbackResponse :=
  match fbCache with
  | some r => r
  | none =>
    if relevant_chunks = [] then fallbackLevels env question all_content
    else
      let basic_answer := generate_answer_with_llm env llmCache question
        relevant_chunks conversation_history
      let confidence := calculate_response_confidence question
        relevant_chunks basic_answer
      if THRESHOLD_HIGH ≤ confidence then
        ⟨basic_answer, confidence, 1, "direct_answer"⟩
      else if THRESHOLD_MEDIUM ≤ confidence then
        ⟨basic_answer ++ uncertainty_note, confidence, 2,
          "partial_answer_with_disclaimer"⟩
      else fallbackLevels env question all_content

/-- The `greeting_words` list of `get_enhanced_answer` (939). -/
def greeting_words : List String :=
  ["hi", "hello", "hey", "greetings", "good morning", "good afternoon",
   "good evening"]

/-- The Tier-0 test of `get_enhanced_answer` (941–943): exact greeting,
greeting-initial, or shorter than 5 characters. -/
def isGreeting (question_lower : String) : Bool :=
  greeting_words.any (fun g => question_lower = g) ||
  greeting_words.any (fun g => leadsWith question_lower.toList g.toList) ||
  question_lower.length < 5

/-- The fixed greeting answer (944). -/
def greeting_answer : String :=
  "Hello! I\x27m your AI assistant. How can I help you today? Feel free to ask me any questions about our products or services."

/-- The answer returned when `parse_chatbot_data` yields nothing (891). -/
def no_content_answer : String :=
  "I don\x27t have any content to answer questions at the moment. Could you try again later or ask about something else?"

/-- Shallow embedding of `get_enhanced_answer` (863–1040), paired with the
retrieval effects it triggers.  The `cache['set']` writes of the final
answer do not affect the returned value and are omitted; the cache reads
are the `caches` argument.  When the collection is absent or empty,
`preprocess_and_index_data` runs: on failure its message is returned, on
success retrieval proceeds against the store it left behind
(`env.preprocess.2.2`). -/
def get_enhanced_answer (env : NLPEnv) (vdb : VDBState)
    (caches : NLPCaches) (question chatbot_id : String)
    (conversation_history : Option (List Turn)) :
    String × List NLPEffect :=
  match caches.answerCache with
  | some cached_answer => (cached_answer, [])
  | none =>
    match env.parse with
    | none => (no_content_answer, [])
    | some parsed_data =>
      let info := get_collection_info vdb env.orc chatbot_id
      if (info.exists' = false ∨ info.points_count = 0) ∧
          env.preprocess.1 = false then
        (env.preprocess.2.1, [])
      else
        let vdb2 :=
          if info.exists' = false ∨ info.points_count = 0 then
            env.preprocess.2.2
          else vdb
        let rr := retrieve_relevant_context env vdb2 caches.contextCache
          question chatbot_id 8
        let relevant_chunks := rr.1
        let all_content := collectAllContent parsed_data
        let question_lower := pyStrip (pyLower question)
        if isGreeting question_lower then
          (env.fmt question greeting_answer 100, rr.2)
        else if relevant_chunks = [] then
          let fr := generate_enhanced_fallback_response env
            caches.fallbackCache caches.llmCache question [] all_content
            conversation_history
          (env.fmt question fr.answer fr.confidence, rr.2)
        else
          match env.groq with
          | some _ =>
            let answer := generate_answer_with_llm env caches.llmCache
              question relevant_chunks conversation_history
            let confidence := calculate_response_confidence question
              relevant_chunks answer
            if confidence < THRESHOLD_MEDIUM then
              let fr := generate_enhanced_fallback_response env
                caches.fallbackCache caches.llmCache question
                relevant_chunks all_content conversation_history
              (env.fmt question fr.answer fr.confidence, rr.2)
            else (env.fmt question answer confidence, rr.2)
          | none =>
            let answer := generate_fallback_answer question relevant_chunks
            let confidence := calculate_response_confidence question
              relevant_chunks answer
            if confidence < THRESHOLD_MEDIUM then
              let fr := generate_enhanced_fallback_response env
                caches.fallbackCache caches.llmCache question
                relevant_chunks all_content conversation_history
              (env.fmt question fr.answer fr.confidence, rr.2)
            else (env.fmt question answer confidence, rr.2)

/-- The `relevant_chunks` the pipeline retrieves (when the collection is
already populated, so retrieval runs against `vdb` itself). -/
def pipelineChunks (env : NLPEnv) (vdb : VDBState) (caches : NLPCaches)
    (question chatbot_id : String) : List String :=
  (retrieve_relevant_context env vdb caches.contextCache question
    chatbot_id 8).1

/-- The draft answer of the main (Groq) path. -/
def pipelineDraft (env : NLPEnv) (vdb : VDBState) (caches : NLPCaches)
    (question chatbot_id : String)
    (conversation_history : Option (List Turn)) : String :=
  generate_answer_with_llm env caches.llmCache question
    (pipelineChunks env vdb caches question chatbot_id)
    conversation_history

/-- The confidence the main path computes for its draft. -/
def pipelineConfidence (env : NLPEnv) (vdb : VDBState) (caches : NLPCaches)
    (question chatbot_id : String)
    (conversation_history : Option (List Turn)) : ℚ :=
  calculate_response_confidence question
    (pipelineChunks env vdb caches question chatbot_id)
    (pipelineDraft env vdb caches question chatbot_id conversation_history)

/-- All four `@cached` slots cold. -/
def coldCaches : NLPCaches := ⟨none, none, none, none⟩

/-- A concrete parsed-data value with a single pdf document. -/
def cexParsed : ParsedData := ⟨[⟨"doc.pdf", "old text"⟩], [], []⟩

/-- Concrete pipeline collaborators for the claim C7 scenario: no LLM, an
identity-like formatter, a 2-dimensional embedding, the local FAISS
store. -/
def cexNLPEnv : NLPEnv where
  embed := fun _ => [1, 0]
  groq := none
  seqRatio := fun _ _ => 0
  shuffle := fun l => l
  choice := fun l => l.headD ""
  fmt := fun _ a _ => a
  parse := some cexParsed
  preprocess := (true, "", cexVDB)
  orc := okOracle

/-- The stored chunk of the claim C8 scenario. -/
def chunk8 : String := "reset password quickly today help"

/-- The question of the claim C8 scenario. -/
def q8 : String := "how do i reset my password quickly today"

/-- The LLM draft of the claim C8 scenario: 27 words, none of the
uncertainty markers. -/
def draft8 : String :=
  "To reset your password open the settings page select security then choose reset password and follow the steps shown on the screen to finish the process now"

/-- Local-backend store for the claim C8 scenario: collection `"bot"`
holds one 2-dimensional vector whose text is `chunk8`. -/
def cexVDB8 : VDBState where
  use_qdrant := false
  faiss_available := true
  collections := []
  server := []
  indexes := [("bot", ⟨2, [[1, 0]]⟩)]
  text_stores := [("bot", [chunk8])]
  metadata_stores := [("bot", [[("text", chunk8), ("chatbot_id", "bot")]])]
  dim_cache := []

/-- The C8 scenario's LLM: echoes the fixed draft. -/
def cexLLM8 : String → List String → Option (List Turn) → String :=
  fun _ _ _ => draft8

/-- Concrete pipeline collaborators for the claim C8 scenario: Groq
configured, identity-like formatter. -/
def cexNLPEnv8 : NLPEnv where
  embed := fun _ => [1, 0]
  groq := some cexLLM8
  seqRatio := fun _ _ => 0
  shuffle := fun l => l
  choice := fun l => l.headD ""
  fmt := fun _ a _ => a
  parse := some cexParsed
  preprocess := (true, "", cexVDB)
  orc := okOracle

end XavierAI

namespace XavierAI

/-! ## Lemmas about `clean_text` (claim C10) -/

/-- Two adjacent characters are not both whitespace. -/
def noWW (a b : Char) : Prop :=
  ¬(pyIsSpace a = true ∧ pyIsSpace b = true)

/-- Every whitespace character of the list is the plain space `' '`. -/
def WSIsSpace (l : List Char) : Prop :=
  ∀ c ∈ l, pyIsSpace c = true → c = ' '

/-- Every character of the list survives `clean_text`'s second regex. -/
def AllAllowed (l : List Char) : Prop :=
  ∀ c ∈ l, cleanAllowed c = true

theorem pyIsSpace_space : pyIsSpace ' ' = true := by decide

theorem cleanAllowed_space : cleanAllowed ' ' = true := by decide

/-- The head of `collapseWS true l` is never whitespace (a pending run's
space has already been emitted, so further whitespace is skipped). -/
theorem collapseWS_true_head :
    ∀ l : List Char, ∀ c, (collapseWS true l).head? = some c →
      pyIsSpace c = false := by
  intro l
  induction l with
  | nil => intro c h; simp [collapseWS] at h
  | cons a rest ih =>
    intro c h
    by_cases ha : pyIsSpace a = true
    · rw [collapseWS, if_pos ha, if_pos rfl] at h
      exact ih c h
    · rw [collapseWS, if_neg ha] at h
      simp only [List.head?_cons, Option.some.injEq] at h
      rw [← h]
      exact Bool.not_eq_true _ ▸ ha

/-- The output of `collapseWS` never has two adjacent whitespace
characters. -/
theorem collapseWS_chain :
    ∀ (b : Bool) (l : List Char), (collapseWS b l).Chain' noWW := by
  intro b l
  induction l generalizing b with
  | nil => simp [collapseWS]
  | cons a rest ih =>
    by_cases ha : pyIsSpace a = true
    · rw [collapseWS, if_pos ha]
      by_cases hb : b = true
      · rw [hb, if_pos rfl]; exact ih true
      · rw [Bool.not_eq_true] at hb
        rw [hb]
        simp only [Bool.false_eq_true, if_false]
        refine List.chain'_cons'.2 ⟨?_, ih true⟩
        intro y hy hcon
        exact absurd hcon.2 (Bool.not_eq_true _ ▸
          (collapseWS_true_head rest y hy) ▸ (by simp))
    · rw [collapseWS, if_neg ha]
      refine List.chain'_cons'.2 ⟨?_, ih false⟩
      intro y _ hcon
      exact ha hcon.1

/-- Every whitespace character that `collapseWS` outputs is `' '`. -/
theorem collapseWS_wsIsSpace :
    ∀ (b : Bool) (l : List Char), WSIsSpace (collapseWS b l) := by
  intro b l
  induction l generalizing b with
  | nil => intro c hc; simp [collapseWS] at hc
  | cons a rest ih =>
    intro c hc hws
    by_cases ha : pyIsSpace a = true
    · rw [collapseWS, if_pos ha] at hc
      by_cases hb : b = true
      · rw [hb, if_pos rfl] at hc; exact ih true c hc hws
      · rw [Bool.not_eq_true] at hb
        rw [hb] at hc
        simp only [Bool.false_eq_true, if_false, List.mem_cons] at hc
        rcases hc with h | h
        · exact h
        · exact ih true c h hws
    · rw [collapseWS, if_neg ha] at hc
      rcases List.mem_cons.1 hc with h | h
      · exact absurd (h ▸ hws) ha
      · exact ih false c h hws

/-- Every character that `collapseWS` outputs is `' '` or comes from the
input. -/
theorem collapseWS_mem :
    ∀ (b : Bool) (l : List Char) (c : Char), c ∈ collapseWS b l →
      c = ' ' ∨ c ∈ l := by
  intro b l
  induction l generalizing b with
  | nil => intro c hc; simp [collapseWS] at hc
  | cons a rest ih =>
    intro c hc
    by_cases ha : pyIsSpace a = true
    · rw [collapseWS, if_pos ha] at hc
      by_cases hb : b = true
      · rw [hb, if_pos rfl] at hc
        rcases ih true c hc with h | h
        · exact Or.inl h
        · exact Or.inr (List.mem_cons_of_mem a h)
      · rw [Bool.not_eq_true] at hb
        rw [hb] at hc
        simp only [Bool.false_eq_true, if_false, List.mem_cons] at hc
        rcases hc with h | h
        · exact Or.inl h
        · rcases ih true c h with h2 | h2
          · exact Or.inl h2
          · exact Or.inr (List.mem_cons_of_mem a h2)
    · rw [collapseWS, if_neg ha] at hc
      rcases List.mem_cons.1 hc with h | h
      · exact Or.inr (h ▸ List.mem_cons_self a rest)
      · rcases ih false c h with h2 | h2
        · exact Or.inl h2
        · exact Or.inr (List.mem_cons_of_mem a h2)

/-- On a list that is already collapsed (no adjacent whitespace, every
whitespace is `' '`), `collapseWS` is the identity. -/
theorem collapseWS_id :
    ∀ l : List Char, l.Chain' noWW → WSIsSpace l →
      collapseWS false l = l ∧
      ((∀ c, l.head? = some c → pyIsSpace c = false) →
        collapseWS true l = l) := by
  intro l
  induction l with
  | nil => exact fun _ _ => ⟨rfl, fun _ => rfl⟩
  | cons a rest ih =>
    intro hchain hws
    have hchain' : rest.Chain' noWW := (List.chain'_cons'.1 hchain).2
    have hrel : ∀ y, rest.head? = some y → noWW a y :=
      (List.chain'_cons'.1 hchain).1
    have hws' : WSIsSpace rest := fun c hc => hws c (List.mem_cons_of_mem a hc)
    have IH := ih hchain' hws'
    constructor
    · by_cases ha : pyIsSpace a = true
      · have haspace : a = ' ' := hws a (List.mem_cons_self a rest) ha
        rw [collapseWS, if_pos ha]
        have htail : collapseWS true rest = rest := by
          refine IH.2 ?_
          intro c hc
          have := hrel c hc
          rw [Bool.eq_false_iff]
          intro hcs
          exact this ⟨ha, hcs⟩
        rw [htail, haspace]
        simp
      · rw [collapseWS, if_neg ha, IH.1]
    · intro hhead
      have ha : pyIsSpace a = false := hhead a rfl
      rw [collapseWS, if_neg (by simp [ha]), IH.1]

/-- The head of `l.dropWhile p` does not satisfy `p`. -/
theorem head_dropWhile_false (p : Char → Bool) :
    ∀ l : List Char, ∀ c, (l.dropWhile p).head? = some c → p c = false := by
  intro l
  induction l with
  | nil => intro c h; simp at h
  | cons a rest ih =>
    intro c h
    by_cases hp : p a = true
    · rw [List.dropWhile_cons_of_pos hp] at h
      exact ih c h
    · rw [List.dropWhile_cons_of_neg (by simp [hp])] at h
      simp only [List.head?_cons, Option.some.injEq] at h
      rw [← h, Bool.eq_false_iff]
      exact hp

/-- If the head of a list does not satisfy `p`, `dropWhile p` is the
identity. -/
theorem dropWhile_id_of_head (p : Char → Bool) :
    ∀ l : List Char, (∀ c, l.head? = some c → p c = false) →
      l.dropWhile p = l := by
  intro l h
  cases l with
  | nil => rfl
  | cons a rest =>
    exact List.dropWhile_cons_of_neg (by simp [h a rfl])

/-- `pyStripList` is strip-from-the-left followed by Mathlib's
strip-from-the-right. -/
theorem pyStripList_eq (l : List Char) :
    pyStripList l = (l.dropWhile pyIsSpace).rdropWhile pyIsSpace := rfl

/-- `pyStripList l` is a contiguous slice of `l`. -/
theorem pyStripList_within (l : List Char) : pyStripList l <:+: l := by
  rw [pyStripList_eq]
  exact (List.rdropWhile_prefix _ _).isInfix.trans
    (List.dropWhile_suffix _).isInfix

/-- `pyStripList` keeps only characters of the input. -/
theorem pyStripList_subset (l : List Char) : ∀ c ∈ pyStripList l, c ∈ l :=
  fun _ hc => (pyStripList_within l).subset hc

/-- `pyStripList` preserves the no-adjacent-whitespace chain. -/
theorem pyStripList_chain (l : List Char) (h : l.Chain' noWW) :
    (pyStripList l).Chain' noWW :=
  h.infix (pyStripList_within l)

/-- The strip output neither starts nor ends with whitespace. -/
theorem pyStripList_stripped (l : List Char) :
    (∀ c, (pyStripList l).head? = some c → pyIsSpace c = false) ∧
    (∀ c, (pyStripList l).getLast? = some c → pyIsSpace c = false) := by
  constructor
  · intro c hc
    rw [pyStripList_eq] at hc
    rcases List.rdropWhile_prefix pyIsSpace (l.dropWhile pyIsSpace) with
      ⟨t, ht⟩
    have hne : (l.dropWhile pyIsSpace).rdropWhile pyIsSpace ≠ [] := by
      intro h0
      rw [h0] at hc; simp at hc
    have := @List.head?_append_of_ne_nil _
      ((l.dropWhile pyIsSpace).rdropWhile pyIsSpace) t hne
    rw [ht] at this
    exact head_dropWhile_false pyIsSpace l c (by rw [this]; exact hc)
  · intro c hc
    rw [pyStripList_eq] at hc
    have hne : (l.dropWhile pyIsSpace).rdropWhile pyIsSpace ≠ [] := by
      intro h0
      rw [h0] at hc; simp at hc
    have hlast := List.rdropWhile_last_not pyIsSpace (l.dropWhile pyIsSpace)
      hne
    rw [List.getLast?_eq_getLast_of_ne_nil hne] at hc
    have : c = ((l.dropWhile pyIsSpace).rdropWhile pyIsSpace).getLast hne :=
      (Option.some.injEq _ _ ▸ hc.symm : _)
    rw [this, Bool.eq_false_iff]
    exact hlast

/-- `pyStripList` is the identity on an already-stripped list. -/
theorem pyStripList_id (l : List Char)
    (hhead : ∀ c, l.head? = some c → pyIsSpace c = false)
    (hlast : ∀ c, l.getLast? = some c → pyIsSpace c = false) :
    pyStripList l = l := by
  rw [pyStripList_eq, dropWhile_id_of_head pyIsSpace l hhead]
  rw [List.rdropWhile_eq_self_iff]
  intro hl
  rw [Bool.not_eq_true]
  exact hlast _ (List.getLast?_eq_getLast_of_ne_nil hl)

/-- `replaceDisallowed` outputs only allow-listed characters. -/
theorem replaceDisallowed_allAllowed (l : List Char) :
    AllAllowed (replaceDisallowed l) := by
  intro c hc
  rcases List.mem_map.1 hc with ⟨a, -, ha⟩
  by_cases h : cleanAllowed a = true
  · rw [if_pos h] at ha; rw [← ha]; exact h
  · rw [if_neg h] at ha; rw [← ha]; exact cleanAllowed_space

/-- `replaceDisallowed` is the identity on allow-listed input. -/
theorem replaceDisallowed_id (l : List Char) (h : AllAllowed l) :
    replaceDisallowed l = l := by
  unfold replaceDisallowed
  induction l with
  | nil => rfl
  | cons a rest ih =>
    rw [List.map_cons, if_pos (h a (List.mem_cons_self a rest)),
      ih (fun c hc => h c (List.mem_cons_of_mem a hc))]

/-- `collapseWS` preserves the allow-list property. -/
theorem collapseWS_allAllowed (b : Bool) (l : List Char) (h : AllAllowed l) :
    AllAllowed (collapseWS b l) := by
  intro c hc
  rcases collapseWS_mem b l c hc with h1 | h1
  · rw [h1]; exact cleanAllowed_space
  · exact h c h1

/-- Structural invariants of the `clean_text` pipeline output: collapsed
whitespace, allow-listed characters, and no leading/trailing whitespace. -/
theorem cleanCore_props (l : List Char) :
    (cleanCore l).Chain' noWW ∧ WSIsSpace (cleanCore l) ∧
    AllAllowed (cleanCore l) ∧
    (∀ c, (cleanCore l).head? = some c → pyIsSpace c = false) ∧
    (∀ c, (cleanCore l).getLast? = some c → pyIsSpace c = false) := by
  have hchain := pyStripList_chain _
    (collapseWS_chain false (replaceDisallowed (collapseWS false l)))
  have hsub := pyStripList_subset
    (collapseWS false (replaceDisallowed (collapseWS false l)))
  refine ⟨hchain, ?_, ?_, (pyStripList_stripped _).1,
    (pyStripList_stripped _).2⟩
  · intro c hc hws
    exact collapseWS_wsIsSpace false _ c (hsub c hc) hws
  · intro c hc
    exact collapseWS_allAllowed false _ (replaceDisallowed_allAllowed _) c
      (hsub c hc)

/-- The character-level `clean_text` pipeline is idempotent. -/
theorem cleanCore_idem (l : List Char) :
    cleanCore (cleanCore l) = cleanCore l := by
  obtain ⟨hchain, hws, hall, hhead, hlast⟩ := cleanCore_props l
  show pyStripList (collapseWS false (replaceDisallowed
    (collapseWS false (cleanCore l)))) = cleanCore l
  rw [(collapseWS_id (cleanCore l) hchain hws).1,
    replaceDisallowed_id (cleanCore l) hall,
    (collapseWS_id (cleanCore l) hchain hws).1]
  exact pyStripList_id (cleanCore l) hhead hlast

theorem toList_mk (L : List Char) : (String.mk L).toList = L := rfl

/-- Claim C10: `clean_text` is idempotent (`clean_text(clean_text(s)) =
clean_text(s)` for every string and, trivially, every non-string), returns
`""` on `None`/non-string input, and its output has no leading or trailing
whitespace and no two consecutive whitespace characters. -/
theorem clean_text_idempotent (v : PyTextInput) :
    clean_text (.PyStr (clean_text v)) = clean_text v ∧
    clean_text .PyNonStr = "" ∧
    (clean_text v).toList.Chain' noWW ∧
    (∀ c, (clean_text v).toList.head? = some c → pyIsSpace c = false) ∧
    (∀ c, (clean_text v).toList.getLast? = some c → pyIsSpace c = false) := by
  have hempty : clean_text (.PyStr "") = "" := by
    simp [clean_text]
  cases v with
  | PyNonStr =>
    refine ⟨hempty, rfl, ?_, ?_, ?_⟩ <;> simp [clean_text]
  | PyStr s =>
    by_cases hs : s = ""
    · subst hs
      rw [show clean_text (.PyStr "") = "" from hempty]
      refine ⟨hempty, rfl, ?_, ?_, ?_⟩ <;> simp
    · have hval : clean_text (.PyStr s) = String.mk (cleanCore s.toList) := by
        simp [clean_text, hs]
      obtain ⟨hchain, -, -, hhead, hlast⟩ := cleanCore_props s.toList
      refine ⟨?_, rfl, ?_, ?_, ?_⟩
      · rw [hval]
        by_cases h0 : String.mk (cleanCore s.toList) = ""
        · rw [h0, hempty, ← h0]
        · show (if String.mk (cleanCore s.toList) = "" then ""
            else String.mk (cleanCore
              (String.mk (cleanCore s.toList)).toList)) = _
          rw [if_neg h0, toList_mk, cleanCore_idem]
      · rw [hval, toList_mk]; exact hchain
      · rw [hval, toList_mk]; exact hhead
      · rw [hval, toList_mk]; exact hlast

/-- Claim C3: For every question string, every list of retrieved chunks, and
every answer string, `calculate_response_confidence` returns a value within
`[0, 100]`, and it returns `0` when the chunk list is empty.  (The Python
`except` branch returning `50.0` is also within the range.) -/
theorem calculate_response_confidence_in_range
    (question : String) (relevant_chunks : List String) (answer : String) :
    0 ≤ calculate_response_confidence question relevant_chunks answer ∧
    calculate_response_confidence question relevant_chunks answer ≤ 100 ∧
    calculate_response_confidence question [] answer = 0 := by
  refine ⟨?_, ?_, by simp [calculate_response_confidence]⟩
  · unfold calculate_response_confidence
    split
    · norm_num
    · exact le_max_left 0 _
  · unfold calculate_response_confidence
    split
    · norm_num
    · exact max_le (by norm_num) (le_trans (min_le_left _ _) (by norm_num))

/-- Claim C5, evaluation at the failing input: A Tier-4 outcome
(`generate_enhanced_fallback_response`'s last-resort branch has
`confidence = 15`, `strategy_level = 4`) repeated twice
(`consecutive_failures = 2`) does **not** set the suggest-ticket flag, because
the code requires `confidence < CONFIDENCE_THRESHOLDS['VERY_LOW'] = 0`, which
no confidence in `[0, 100]` satisfies; moreover the flag is `false` for every
non-negative confidence whatever the other arguments. -/
theorem should_suggest_ticket_false_at_tier4 :
    should_suggest_ticket 15 4 2 = false ∧
    ∀ c : ℚ, ∀ l f : ℕ, 0 ≤ c → should_suggest_ticket c l f = false := by
  constructor
  · decide
  · intro c l f hc
    unfold should_suggest_ticket
    rw [if_neg]
    rintro ⟨h0, -, -⟩
    exact absurd (lt_of_lt_of_le h0 hc) (lt_irrefl c)

/-- Witness for `should_suggest_ticket_false_at_tier4`: the second conjunct
instantiated at the concrete failing input `(15, 4, 2)`. -/
theorem should_suggest_ticket_false_at_tier4_witness :
    (0 : ℚ) ≤ 15 ∧ should_suggest_ticket 15 4 2 = false :=
  ⟨by norm_num,
   (should_suggest_ticket_false_at_tier4.2) 15 4 2 (by norm_num)⟩

/-! ## Lemmas about the deterministic fallback embeddings (claim C4) -/

/-- The generated embedding list is a pure function of the texts: the
incoming global PRNG state is discarded by the per-text `np.random.seed`. -/
theorem generate_fallback_embeddings_fst (env : NumpyEnv) (dimension : ℕ) :
    ∀ (texts : List String) (g : ℕ),
      (generate_fallback_embeddings env dimension texts g).1 =
        texts.map (fun t => l2normalize (rawEmbedding env dimension t)) := by
  intro texts
  induction texts with
  | nil => intro g; rfl
  | cons t ts ih =>
    intro g
    show l2normalize (env.draw (env.seed (env.md5Mod t)) dimension) ::
      (generate_fallback_embeddings env dimension ts _).1 = _
    rw [List.map_cons, ih]
    rfl

theorem sumSq_cons (x : ℚ) (v : List ℚ) :
    sumSq (x :: v) = x * x + sumSq v := by
  simp [sumSq]

theorem sumSq_nonneg (v : List ℚ) : 0 ≤ sumSq v := by
  induction v with
  | nil => simp [sumSq]
  | cons x v ih =>
    rw [sumSq_cons]
    exact add_nonneg (mul_self_nonneg x) ih

theorem sumSqR_map_div (v : List ℚ) (c : ℝ) :
    sumSqR (v.map (fun x : ℚ => (x : ℝ) / c)) =
      ((sumSq v : ℚ) : ℝ) / (c * c) := by
  induction v with
  | nil => simp [sumSqR, sumSq]
  | cons x v ih =>
    have : sumSqR ((x :: v).map (fun y : ℚ => (y : ℝ) / c)) =
        (x : ℝ) / c * ((x : ℝ) / c) +
          sumSqR (v.map (fun y : ℚ => (y : ℝ) / c)) := by
      simp [sumSqR]
    rw [this, ih, sumSq_cons, div_mul_div_comm]
    push_cast
    rw [div_add_div_same]

/-- Normalising a vector with non-zero squared norm yields a vector whose
squared L2 norm is exactly `1`. -/
theorem l2normalize_unit (v : List ℚ) (h : sumSq v ≠ 0) :
    sumSqR (l2normalize v) = 1 := by
  unfold l2normalize
  rw [sumSqR_map_div]
  have hnn : (0 : ℝ) ≤ ((sumSq v : ℚ) : ℝ) := by
    exact_mod_cast sumSq_nonneg v
  rw [Real.mul_self_sqrt hnn]
  exact div_self (by exact_mod_cast h)

theorem l2normalize_length (v : List ℚ) :
    (l2normalize v).length = v.length := by
  unfold l2normalize
  exact List.length_map v _

/-- Claim C4: the deterministic fallback embedding generator returns the
identical list of vectors regardless of the pre-call global PRNG state (same
text, hence same MD5 seed, gives the same vector across calls and restarts);
the result is a pure per-text function; and each returned vector has the
configured dimension and unit L2 norm (squared norm `1`), provided the raw
sample vector is non-zero. -/
theorem generate_fallback_embeddings_deterministic_unit
    (env : NumpyEnv) (dimension : ℕ) (texts : List String) (g g' : ℕ)
    (hnz : ∀ t ∈ texts, sumSq (rawEmbedding env dimension t) ≠ 0) :
    (generate_fallback_embeddings env dimension texts g).1 =
      (generate_fallback_embeddings env dimension texts g').1 ∧
    (generate_fallback_embeddings env dimension texts g).1 =
      texts.map (fun t => l2normalize (rawEmbedding env dimension t)) ∧
    ∀ e ∈ (generate_fallback_embeddings env dimension texts g).1,
      e.length = dimension ∧ sumSqR e = 1 := by
  refine ⟨?_, generate_fallback_embeddings_fst env dimension texts g, ?_⟩
  · rw [generate_fallback_embeddings_fst, generate_fallback_embeddings_fst]
  · intro e he
    rw [generate_fallback_embeddings_fst] at he
    rcases List.mem_map.1 he with ⟨t, ht, rfl⟩
    constructor
    · rw [l2normalize_length]
      unfold rawEmbedding
      exact env.draw_length _ _
    · exact l2normalize_unit _ (hnz t ht)

/-- Witness for `generate_fallback_embeddings_deterministic_unit` at the
concrete environment `constNumpyEnv`, dimension 2, text list `["hello"]`,
and two distinct pre-call PRNG states. -/
theorem generate_fallback_embeddings_deterministic_unit_witness :
    (∀ t ∈ ["hello"], sumSq (rawEmbedding constNumpyEnv 2 t) ≠ 0) ∧
    ((generate_fallback_embeddings constNumpyEnv 2 ["hello"] 0).1 =
      (generate_fallback_embeddings constNumpyEnv 2 ["hello"] 37).1 ∧
    (generate_fallback_embeddings constNumpyEnv 2 ["hello"] 0).1 =
      ["hello"].map (fun t => l2normalize (rawEmbedding constNumpyEnv 2 t)) ∧
    ∀ e ∈ (generate_fallback_embeddings constNumpyEnv 2 ["hello"] 0).1,
      e.length = 2 ∧ sumSqR e = 1) := by
  have hnz : ∀ t ∈ ["hello"], sumSq (rawEmbedding constNumpyEnv 2 t) ≠ 0 := by
    intro t ht
    have : rawEmbedding constNumpyEnv 2 t = [1, 1] := rfl
    rw [this, sumSq_cons, sumSq_cons]
    norm_num [sumSq]
  exact ⟨hnz,
    generate_fallback_embeddings_deterministic_unit constNumpyEnv 2
      ["hello"] 0 37 hnz⟩

/-! ## Lemmas about `chunk_text` (claim C9) -/

theorem pyJoin_length :
    ∀ l : List String, l ≠ [] →
      (pyJoin l).length = (l.map String.length).sum + (l.length - 1) := by
  intro l
  induction l with
  | nil => intro h; exact absurd rfl h
  | cons s rest ih =>
    intro _
    cases rest with
    | nil => simp [pyJoin]
    | cons t ts =>
      show (s ++ " " ++ pyJoin (t :: ts)).length = _
      rw [String.length_append, String.length_append,
        ih (List.cons_ne_nil t ts)]
      simp only [List.map_cons, List.sum_cons, List.length_cons]
      have hsp : (" " : String).length = 1 := rfl
      omega

theorem length_le_sum_of_ge_one :
    ∀ l : List String, (∀ c ∈ l, 1 ≤ c.length) →
      l.length ≤ (l.map String.length).sum := by
  intro l
  induction l with
  | nil => intro _; simp
  | cons s rest ih =>
    intro h
    simp only [List.length_cons, List.map_cons, List.sum_cons]
    have h1 := h s (List.mem_cons_self s rest)
    have h2 := ih (fun c hc => h c (List.mem_cons_of_mem s hc))
    omega

theorem pySlice_length_le (s : String) (i n : ℕ) :
    (pySlice s i n).length ≤ n := by
  show ((s.toList.drop i).take n).length ≤ n
  exact List.length_take_le n _

theorem rangeStep_mem_lt (stop step : ℕ) (hstep : step ≠ 0) :
    ∀ j ∈ rangeStep stop step, j < stop := by
  intro j hj
  unfold rangeStep at hj
  rw [if_neg hstep] at hj
  rcases List.mem_map.1 hj with ⟨k, hk, rfl⟩
  rw [List.mem_range] at hk
  have h1 : (k + 1) * step ≤ ((stop + step - 1) / step) * step :=
    Nat.mul_le_mul_right step hk
  have h2 : ((stop + step - 1) / step) * step ≤ stop + step - 1 :=
    Nat.div_mul_le_self _ _
  have h3 : (k + 1) * step = k * step + step := by ring
  have h4 : 1 ≤ step := Nat.one_le_iff_ne_zero.2 hstep
  by_cases hstop : stop = 0
  · subst hstop
    have h5 : (0 + step - 1) / step = 0 := Nat.div_eq_of_lt (by omega)
    rw [h5] at hk
    omega
  · omega

theorem rangeStep_pairwise (stop step : ℕ) :
    (rangeStep stop step).Pairwise (· < ·) := by
  unfold rangeStep
  by_cases hstep : step = 0
  · rw [if_pos hstep]; exact List.Pairwise.nil
  · rw [if_neg hstep]
    rw [List.pairwise_map]
    refine (List.pairwise_lt_range _).imp ?_
    intro a b hab
    exact (Nat.mul_lt_mul_right (Nat.pos_of_ne_zero hstep)).2 hab

/-- Chains of `sentR` are transitive-closed: every sentence starts past the
end of every earlier one. -/
theorem ordered_pairwise {l : List (ℕ × String)} (h : OrderedSentences l) :
    l.Pairwise sentR :=
  List.chain'_iff_pairwise.1 h.1

/-- An `OrderedSentences` property restricts to any suffix. -/
theorem ordered_suffix {l l₂ : List (ℕ × String)} (h : OrderedSentences l)
    (hs : List.IsSuffix l₂ l) : OrderedSentences l₂ :=
  ⟨h.1.suffix hs, fun x hx => h.2 x (hs.subset hx)⟩

/-- The buffered chunk starts strictly before every sentence that has not
yet been consumed. -/
theorem bufStart_lt {current rest : List (ℕ × String)}
    (hord : OrderedSentences (current ++ rest)) (hcur : current ≠ [])
    {x : ℕ × String} (hx : x ∈ rest) : bufStart current < x.1 := by
  cases current with
  | nil => exact absurd rfl hcur
  | cons a cur' =>
    have hpw := ordered_pairwise hord
    have hcross := (List.pairwise_append.1 hpw).2.2
    have hR : sentR a x :=
      hcross a (List.mem_cons_self a cur') x hx
    have hlen : 1 ≤ (pyStrip a.2).length :=
      hord.2 a (List.mem_append_left rest (List.mem_cons_self a cur'))
    show a.1 < x.1
    omega

theorem pyStrip_idem (s : String) : pyStrip (pyStrip s) = pyStrip s := by
  unfold pyStrip
  rw [toList_mk]
  congr 1
  exact pyStripList_id _ (pyStripList_stripped _).1 (pyStripList_stripped _).2

/-- Every already-emitted chunk starts before the buffered chunk. -/
theorem lt_bufStart_of_forall {chunks current rest : List (ℕ × String)}
    (h4 : ∀ c ∈ chunks, ∀ x ∈ current ++ rest, c.1 < x.1)
    (hcur : current ≠ []) : ∀ c ∈ chunks, c.1 < bufStart current := by
  cases current with
  | nil => exact absurd rfl hcur
  | cons a cur' =>
    intro c hc
    exact h4 c hc a (List.mem_append_left rest (List.mem_cons_self a cur'))

/-- Appending the buffered chunk keeps emitted start offsets strictly
increasing. -/
theorem emit_buffer_pairwise {chunks current rest : List (ℕ × String)}
    {j : String}
    (hpw : (chunks.map Prod.fst).Pairwise (· < ·))
    (h4 : ∀ c ∈ chunks, ∀ x ∈ current ++ rest, c.1 < x.1)
    (hcur : current ≠ []) :
    ((chunks ++ [(bufStart current, j)]).map Prod.fst).Pairwise (· < ·) := by
  rw [List.map_append, List.pairwise_append]
  refine ⟨hpw, by simp, ?_⟩
  intro a ha b hb
  simp only [List.map_cons, List.map_nil, List.mem_singleton] at hb
  subst hb
  rcases List.mem_map.1 ha with ⟨c, hc, rfl⟩
  exact lt_bufStart_of_forall h4 hcur c hc

theorem windowsAnn_mem (cfg : TextProcessorCfg) (o : ℕ) (t : String)
    {c : ℕ × String} (hc : c ∈ longSentenceWindowsAnn cfg o t) :
    ∃ i ∈ rangeStep t.length (cfg.chunk_size - cfg.chunk_overlap),
      c.1 = o + i := by
  unfold longSentenceWindowsAnn at hc
  have hmem := List.mem_of_mem_filter hc
  rcases List.mem_map.1 hmem with ⟨i, hi, rfl⟩
  exact ⟨i, hi, rfl⟩

theorem windowsAnn_fst_pairwise (cfg : TextProcessorCfg) (o : ℕ)
    (t : String) :
    ((longSentenceWindowsAnn cfg o t).map Prod.fst).Pairwise (· < ·) := by
  have hsub : List.Sublist (longSentenceWindowsAnn cfg o t)
      ((rangeStep t.length (cfg.chunk_size - cfg.chunk_overlap)).map
        (fun i => ((o + i : ℕ), pySlice t i cfg.chunk_size))) :=
    List.filter_sublist _
  refine List.Pairwise.sublist (hsub.map Prod.fst) ?_
  rw [List.map_map]
  show ((rangeStep t.length (cfg.chunk_size - cfg.chunk_overlap)).map
    (fun i => o + i)).Pairwise (· < ·)
  rw [List.pairwise_map]
  refine (rangeStep_pairwise _ _).imp ?_
  intro a b hab
  omega

/-- `longSentenceWindowsAnn` projects to `longSentenceWindows`. -/
theorem windowsAnn_proj (cfg : TextProcessorCfg) (o : ℕ) (t : String) :
    (longSentenceWindowsAnn cfg o t).map Prod.snd =
      longSentenceWindows cfg t := by
  unfold longSentenceWindowsAnn longSentenceWindows
  rw [List.filter_map, List.filter_map, List.map_map]
  rfl

/-- The offset-instrumented loop computes the same chunks as the plain
loop. -/
theorem chunkLoopAnn_proj (cfg : TextProcessorCfg) :
    ∀ (rest chunks current : List (ℕ × String)) (clen : ℕ),
      (chunkLoopAnn cfg rest chunks current clen).map Prod.snd =
        chunkLoop cfg (rest.map Prod.snd) (chunks.map Prod.snd)
          (current.map Prod.snd) clen := by
  intro rest
  induction rest with
  | nil =>
    intro chunks current clen
    simp only [chunkLoopAnn, List.map_nil, chunkLoop]
    by_cases hcur : current = []
    · subst hcur
      simp
    · have hcur2 : current.map Prod.snd ≠ [] := by simpa using hcur
      by_cases hmin :
          cfg.min_chunk_size ≤ (pyJoin (current.map Prod.snd)).length
      · rw [if_pos ⟨hcur, hmin⟩, if_pos ⟨hcur2, hmin⟩, List.map_append]
        rfl
      · rw [if_neg (fun h => hmin h.2), if_neg (fun h => hmin h.2)]
  | cons p rest' ih =>
    intro chunks current clen
    obtain ⟨o, s⟩ := p
    simp only [chunkLoopAnn, List.map_cons, chunkLoop]
    by_cases hlong : cfg.chunk_size < (pyStrip s).length
    · rw [if_pos hlong, if_pos hlong, ih]
      have harg : ((if current ≠ [] then
          chunks ++ [(bufStart current, pyJoin (current.map Prod.snd))]
        else chunks) ++ longSentenceWindowsAnn cfg o (pyStrip s)).map
          Prod.snd =
        (if current.map Prod.snd ≠ [] then
          chunks.map Prod.snd ++ [pyJoin (current.map Prod.snd)]
        else chunks.map Prod.snd) ++ longSentenceWindows cfg (pyStrip s) := by
        rw [List.map_append, windowsAnn_proj]
        congr 1
        by_cases hcur : current = []
        · subst hcur; simp
        · have hcur2 : current.map Prod.snd ≠ [] := by simpa using hcur
          rw [if_pos hcur, if_pos hcur2, List.map_append]
          rfl
      rw [harg]
      rfl
    · rw [if_neg hlong, if_neg hlong]
      by_cases hfl : cfg.chunk_size < clen + (pyStrip s).length
      · rw [if_pos hfl, if_pos hfl, ih]
        have harg : ((if current ≠ [] ∧
            cfg.min_chunk_size ≤ (pyJoin (current.map Prod.snd)).length then
            chunks ++ [(bufStart current, pyJoin (current.map Prod.snd))]
          else chunks)).map Prod.snd =
          (if current.map Prod.snd ≠ [] ∧
              cfg.min_chunk_size ≤ (pyJoin (current.map Prod.snd)).length then
            chunks.map Prod.snd ++ [pyJoin (current.map Prod.snd)]
          else chunks.map Prod.snd) := by
          by_cases hcur : current = []
          · subst hcur; simp
          · have hcur2 : current.map Prod.snd ≠ [] := by simpa using hcur
            by_cases hmin :
                cfg.min_chunk_size ≤ (pyJoin (current.map Prod.snd)).length
            · rw [if_pos ⟨hcur, hmin⟩, if_pos ⟨hcur2, hmin⟩, List.map_append]
              rfl
            · rw [if_neg (fun h => hmin h.2), if_neg (fun h => hmin h.2)]
        rw [harg]
        rfl
      · rw [if_neg hfl, if_neg hfl, ih, List.map_append]
        rfl

/-- Replacing a sentence by its stripped form preserves well-formedness of
the annotated list (stripping is idempotent and the offsets are
untouched). -/
theorem ordered_replace_strip {current rest : List (ℕ × String)} {o : ℕ}
    {s : String} (hord : OrderedSentences (current ++ (o, s) :: rest)) :
    OrderedSentences (current ++ (o, pyStrip s) :: rest) := by
  rcases hord with ⟨hchain, hne⟩
  constructor
  · rw [List.chain'_append] at hchain ⊢
    refine ⟨hchain.1, ?_, ?_⟩
    · have h2 := hchain.2.1
      rw [List.chain'_cons'] at h2 ⊢
      refine ⟨?_, h2.2⟩
      intro y hy
      have hys := h2.1 y hy
      show o + (pyStrip (pyStrip s)).length ≤ y.1
      rw [pyStrip_idem]
      exact hys
    · intro x hx y hy
      simp only [List.head?_cons, Option.mem_def, Option.some.injEq] at hy
      subst hy
      exact hchain.2.2 x hx (o, s) (by simp)
  · intro x hx
    rcases List.mem_append.1 hx with hx | hx
    · exact hne x (List.mem_append_left _ hx)
    · rcases List.mem_cons.1 hx with hx | hx
      · subst hx
        show 1 ≤ (pyStrip (pyStrip s)).length
        rw [pyStrip_idem]
        exact hne (o, s)
          (List.mem_append_right _ (List.mem_cons_self _ _))
      · exact hne x (List.mem_append_right _ (List.mem_cons_of_mem _ hx))

/-- Start offsets of the emitted chunks are strictly increasing (the heart
of claim C9's monotonicity property). -/
theorem chunkLoopAnn_mono (cfg : TextProcessorCfg)
    (hov : cfg.chunk_overlap < cfg.chunk_size) :
    ∀ (rest chunks current : List (ℕ × String)) (clen : ℕ),
      OrderedSentences (current ++ rest) →
      ((chunks.map Prod.fst).Pairwise (· < ·)) →
      (∀ c ∈ chunks, ∀ x ∈ current ++ rest, c.1 < x.1) →
      ((chunkLoopAnn cfg rest chunks current clen).map Prod.fst).Pairwise
        (· < ·) := by
  have hstep : cfg.chunk_size - cfg.chunk_overlap ≠ 0 := by omega
  intro rest
  induction rest with
  | nil =>
    intro chunks current clen hord hpw h4
    simp only [chunkLoopAnn]
    split
    · rename_i hcnd
      exact emit_buffer_pairwise hpw h4 hcnd.1
    · exact hpw
  | cons p rest' ih =>
    intro chunks current clen hord hpw h4
    obtain ⟨o, s⟩ := p
    have hsuf : List.IsSuffix ((o, s) :: rest')
        (current ++ (o, s) :: rest') := List.suffix_append current _
    have hordC : OrderedSentences ((o, s) :: rest') := ordered_suffix hord hsuf
    have hordR : OrderedSentences rest' :=
      ordered_suffix hord ((List.suffix_cons (o, s) rest').trans hsuf)
    have hOx : ∀ x ∈ rest', o + (pyStrip s).length ≤ x.1 := by
      intro x hx
      have hpwC := ordered_pairwise hordC
      rw [List.pairwise_cons] at hpwC
      exact hpwC.1 x hx
    have hslen : 1 ≤ (pyStrip s).length :=
      hordC.2 (o, s) (List.mem_cons_self _ _)
    have hbufx : current ≠ [] →
        ∀ x ∈ (o, s) :: rest', bufStart current < x.1 := by
      intro hcur x hx
      exact bufStart_lt hord hcur hx
    have hcO : ∀ c ∈ chunks, c.1 < o :=
      fun c hc => h4 c hc (o, s)
        (List.mem_append_right current (List.mem_cons_self _ _))
    simp only [chunkLoopAnn]
    split
    · -- a sentence longer than chunk_size: flush, then hard-split windows
      rename_i hlong
      -- bound facts about the pre-window chunk list
      have hpw1 : (((if current ≠ [] then
          chunks ++ [(bufStart current, pyJoin (current.map Prod.snd))]
        else chunks)).map Prod.fst).Pairwise (· < ·) := by
        split
        · rename_i hcur
          exact emit_buffer_pairwise hpw h4 hcur
        · exact hpw
      have h41 : ∀ c ∈ (if current ≠ [] then
          chunks ++ [(bufStart current, pyJoin (current.map Prod.snd))]
        else chunks), c.1 < o := by
        split
        · rename_i hcur
          intro c hc
          rcases List.mem_append.1 hc with hc | hc
          · exact hcO c hc
          · rw [List.mem_singleton] at hc
            subst hc
            exact hbufx hcur (o, s) (List.mem_cons_self _ _)
        · exact hcO
      have hwin : ∀ w ∈ longSentenceWindowsAnn cfg o (pyStrip s),
          o ≤ w.1 ∧ w.1 < o + (pyStrip s).length := by
        intro w hw
        rcases windowsAnn_mem cfg o (pyStrip s) hw with ⟨i, hi, hwi⟩
        have hilt : i < (pyStrip s).length :=
          rangeStep_mem_lt _ _ hstep i hi
        omega
      refine ih _ [] 0 (by simpa using hordR) ?_ ?_
      · -- strictly increasing offsets after appending the windows
        rw [List.map_append, List.pairwise_append]
        refine ⟨hpw1, windowsAnn_fst_pairwise cfg o (pyStrip s), ?_⟩
        intro a ha b hb
        rcases List.mem_map.1 ha with ⟨c, hc, rfl⟩
        rcases List.mem_map.1 hb with ⟨w, hw, rfl⟩
        have := h41 c hc
        have := (hwin w hw).1
        omega
      · -- everything emitted so far starts before every future sentence
        intro c hc x hx
        rw [List.nil_append] at hx
        have hx1 := hOx x hx
        rcases List.mem_append.1 hc with hc | hc
        · have := h41 c hc
          omega
        · have := (hwin c hc).2
          omega
    · split
      · -- flush: emit the buffer, restart it with this sentence
        rename_i hnotlong hfl
        have hpw1 : (((if current ≠ [] ∧
            cfg.min_chunk_size ≤ (pyJoin (current.map Prod.snd)).length then
            chunks ++ [(bufStart current, pyJoin (current.map Prod.snd))]
          else chunks)).map Prod.fst).Pairwise (· < ·) := by
          split
          · rename_i hcnd
            exact emit_buffer_pairwise hpw h4 hcnd.1
          · exact hpw
        refine ih _ [(o, pyStrip s)] ((pyStrip s).length) ?_ hpw1 ?_
        · -- the restarted buffer plus the remaining sentences is ordered
          constructor
          · show List.Chain' sentR ((o, pyStrip s) :: rest')
            rw [List.chain'_cons']
            refine ⟨?_, hordR.1⟩
            intro y hy
            have hy' : rest'.head? = some y := hy
            have hchainC := hordC.1
            rw [List.chain'_cons'] at hchainC
            have := hchainC.1 y hy
            show o + (pyStrip (pyStrip s)).length ≤ y.1
            rw [pyStrip_idem]
            exact this
          · intro x hx
            rcases List.mem_cons.1 (by simpa using hx) with hx | hx
            · subst hx
              show 1 ≤ (pyStrip (pyStrip s)).length
              rw [pyStrip_idem]
              exact hslen
            · exact hordR.2 x hx
        · -- all emitted chunks start before the new buffer and the rest
          intro c hc x hx
          have hxo : o ≤ x.1 := by
            rcases List.mem_cons.1 hx with hx | hx
            · subst hx; exact le_refl o
            · exact le_trans (Nat.le_add_right o _) (hOx x hx)
          split at hc
          · rename_i hcnd
            rcases List.mem_append.1 hc with hc | hc
            · have := hcO c hc
              omega
            · rw [List.mem_singleton] at hc
              subst hc
              have := hbufx hcnd.1 (o, s) (List.mem_cons_self _ _)
              show bufStart current < x.1
              omega
          · have := hcO c hc
            omega
      · -- greedy append to the buffer
        rename_i hnotlong hnotfl
        have happ : (current ++ [(o, pyStrip s)]) ++ rest' =
            current ++ ((o, pyStrip s) :: rest') := by
          rw [List.append_assoc]
          rfl
        refine ih chunks (current ++ [(o, pyStrip s)])
          (clen + (pyStrip s).length) ?_ hpw ?_
        · rw [happ]
          exact ordered_replace_strip hord
        · intro c hc x hx
          rw [happ] at hx
          rcases List.mem_append.1 hx with hx | hx
          · exact h4 c hc x (List.mem_append_left _ hx)
          · rcases List.mem_cons.1 hx with hx | hx
            · subst hx
              show c.1 < o
              exact hcO c hc
            · exact h4 c hc x
                (List.mem_append_right _ (List.mem_cons_of_mem _ hx))

/-- Every chunk that `chunkLoop` emits has length at most
`2 * chunk_size - 1`: the buffer's sentence lengths sum to at most
`chunk_size`, and `" ".join` adds at most one space per sentence. -/
theorem chunkLoop_length (cfg : TextProcessorCfg)
    (hsz : 1 ≤ cfg.chunk_size) :
    ∀ (rest chunks current : List String) (clen : ℕ),
      (∀ c ∈ chunks, c.length ≤ 2 * cfg.chunk_size - 1) →
      (∀ c ∈ current, 1 ≤ c.length) →
      clen = (current.map String.length).sum →
      clen ≤ cfg.chunk_size →
      (∀ s ∈ rest, 1 ≤ (pyStrip s).length) →
      ∀ c ∈ chunkLoop cfg rest chunks current clen,
        c.length ≤ 2 * cfg.chunk_size - 1 := by
  intro rest
  induction rest with
  | nil =>
    intro chunks current clen hchunks hcur hsum hle _hrest c hc
    simp only [chunkLoop] at hc
    split at hc
    · rename_i hcnd
      rcases List.mem_append.1 hc with hc | hc
      · exact hchunks c hc
      · rw [List.mem_singleton] at hc
        subst hc
        rw [pyJoin_length current hcnd.1]
        have hcount := length_le_sum_of_ge_one current hcur
        omega
    · exact hchunks c hc
  | cons s rest' ih =>
    intro chunks current clen hchunks hcur hsum hle hrest c hc
    have hrest' : ∀ t ∈ rest', 1 ≤ (pyStrip t).length :=
      fun t ht => hrest t (List.mem_cons_of_mem s ht)
    have hjoin : current ≠ [] →
        (pyJoin current).length ≤ 2 * cfg.chunk_size - 1 := by
      intro hne
      rw [pyJoin_length current hne]
      have hcount := length_le_sum_of_ge_one current hcur
      omega
    simp only [chunkLoop] at hc
    split at hc
    · -- long sentence: flushed buffer plus windows of length ≤ chunk_size
      refine ih _ [] 0 ?_ (by simp) (by simp) (by omega) hrest' c hc
      intro d hd
      rcases List.mem_append.1 hd with hd | hd
      · split at hd
        · rcases List.mem_append.1 hd with hd | hd
          · exact hchunks d hd
          · rw [List.mem_singleton] at hd
            subst hd
            exact hjoin (by assumption)
        · exact hchunks d hd
      · unfold longSentenceWindows at hd
        have hd2 := List.mem_of_mem_filter hd
        rcases List.mem_map.1 hd2 with ⟨i, _, rfl⟩
        have := pySlice_length_le (pyStrip s) i cfg.chunk_size
        omega
    · rename_i hnotlong
      split at hc
      · -- flush, restart the buffer with this sentence
        rename_i hfl
        refine ih _ [pyStrip s] ((pyStrip s).length) ?_ ?_ (by simp) ?_
          hrest' c hc
        · intro d hd
          split at hd
          · rcases List.mem_append.1 hd with hd | hd
            · exact hchunks d hd
            · rw [List.mem_singleton] at hd
              subst hd
              rename_i hcnd
              exact hjoin hcnd.1
          · exact hchunks d hd
        · intro d hd
          rw [List.mem_singleton] at hd
          subst hd
          exact hrest s (List.mem_cons_self s rest')
        · omega
      · -- greedy append
        rename_i hnotfl
        refine ih _ (current ++ [pyStrip s])
          (clen + (pyStrip s).length) hchunks ?_ ?_ (by omega) hrest' c hc
        · intro d hd
          rcases List.mem_append.1 hd with hd | hd
          · exact hcur d hd
          · rw [List.mem_singleton] at hd
            subst hd
            exact hrest s (List.mem_cons_self s rest')
        · rw [List.map_append, List.sum_append, hsum]
          simp

/-- Claim C9 (amended): for every well-formed annotated sentence list the
chunks produced by `chunk_text`'s sentence path appear at strictly
increasing start offsets, and every chunk — including the last — has length
at most `2 * chunk_size - 1` (the claim's bound `chunk_size` fails, see the
counterexample: the buffer bound counts sentence lengths without the joining
spaces). -/
theorem chunk_text_order_and_bound (cfg : TextProcessorCfg)
    (hov : cfg.chunk_overlap < cfg.chunk_size)
    (anns : List (ℕ × String)) (hord : OrderedSentences anns) :
    ((chunk_text_ann cfg anns).map Prod.fst).Pairwise (· < ·) ∧
    (chunk_text_ann cfg anns).map Prod.snd =
      chunk_text_sentences cfg (anns.map Prod.snd) ∧
    ∀ c ∈ chunk_text_sentences cfg (anns.map Prod.snd),
      c.length ≤ 2 * cfg.chunk_size - 1 := by
  refine ⟨?_, ?_, ?_⟩
  · exact chunkLoopAnn_mono cfg hov anns [] [] 0 (by simpa using hord)
      List.Pairwise.nil (by simp)
  · exact chunkLoopAnn_proj cfg anns [] [] 0
  · refine chunkLoop_length cfg (by omega) (anns.map Prod.snd) [] [] 0
      (by simp) (by simp) (by simp) (by omega) ?_
    intro s hs
    rcases List.mem_map.1 hs with ⟨x, hx, rfl⟩
    exact hord.2 x hx

/-- Witness for `chunk_text_order_and_bound`: two short concrete sentences
with their text offsets, at the `TextProcessor()` default configuration. -/
theorem chunk_text_order_and_bound_witness :
    ((200 : ℕ) < 800 ∧
      OrderedSentences [(0, "Hello there."), (13, "Bye now.")]) ∧
    (((chunk_text_ann defaultTP
        [(0, "Hello there."), (13, "Bye now.")]).map Prod.fst).Pairwise
          (· < ·) ∧
    (chunk_text_ann defaultTP
        [(0, "Hello there."), (13, "Bye now.")]).map Prod.snd =
      chunk_text_sentences defaultTP ["Hello there.", "Bye now."] ∧
    ∀ c ∈ chunk_text_sentences defaultTP ["Hello there.", "Bye now."],
      c.length ≤ 2 * defaultTP.chunk_size - 1) := by
  have hord : OrderedSentences [(0, "Hello there."), (13, "Bye now.")] := by
    constructor
    · rw [List.chain'_cons']
      refine ⟨?_, List.chain'_singleton _⟩
      intro y hy
      simp only [List.head?_cons, Option.mem_def, Option.some.injEq] at hy
      subst hy
      show 0 + (pyStrip "Hello there.").length ≤ 13
      decide
    · intro x hx
      rcases List.mem_cons.1 hx with hx | hx
      · subst hx; decide
      · rcases List.mem_cons.1 hx with hx | hx
        · subst hx; decide
        · simp at hx
  exact ⟨⟨by norm_num, hord⟩,
    chunk_text_order_and_bound defaultTP (by decide) _ hord⟩

/-! ## Lemmas about `VectorDBService` (claims C1 and C2) -/

theorem alookup_cons_of_eq {α : Type} (p : String × α) (rest : List (String × α))
    (k : String) (h : p.1 = k) : alookup (p :: rest) k = some p.2 := by
  unfold alookup
  rw [List.find?_cons_of_pos]
  · rfl
  · exact decide_eq_true h

theorem alookup_cons_of_ne {α : Type} (p : String × α) (rest : List (String × α))
    (k : String) (h : p.1 ≠ k) : alookup (p :: rest) k = alookup rest k := by
  unfold alookup
  rw [List.find?_cons_of_neg]
  simp [h]

theorem alookup_eq_none_iff {α : Type} (l : List (String × α)) (k : String) :
    alookup l k = none ↔ l.find? (fun p => p.1 = k) = none := by
  unfold alookup
  exact Option.map_eq_none'

theorem alookup_append_single {α : Type} :
    ∀ (l : List (String × α)) (k : String) (v : α), alookup l k = none →
      alookup (l ++ [(k, v)]) k = some v := by
  intro l
  induction l with
  | nil =>
    intro k v _
    exact alookup_cons_of_eq (k, v) [] k rfl
  | cons p rest ih =>
    intro k v h
    by_cases hpk : p.1 = k
    · rw [alookup_cons_of_eq p rest k hpk] at h
      exact absurd h (by simp)
    · rw [List.cons_append, alookup_cons_of_ne p _ k hpk]
      rw [alookup_cons_of_ne p rest k hpk] at h
      exact ih k v h

theorem alookup_map_replace {α : Type} :
    ∀ (l : List (String × α)) (k : String) (v : α),
      (l.find? (fun p => p.1 = k)).isSome →
      alookup (l.map (fun p => if p.1 = k then (k, v) else p)) k = some v := by
  intro l
  induction l with
  | nil =>
    intro k v h
    simp [List.find?] at h
  | cons p rest ih =>
    intro k v h
    by_cases hpk : p.1 = k
    · rw [List.map_cons, if_pos hpk]
      exact alookup_cons_of_eq (k, v) _ k rfl
    · rw [List.map_cons, if_neg hpk, alookup_cons_of_ne p _ k hpk]
      apply ih k v
      have hfind : List.find? (fun q => decide (q.1 = k)) (p :: rest) =
          List.find? (fun q => decide (q.1 = k)) rest :=
        List.find?_cons_of_neg rest (by simp [hpk])
      rw [hfind] at h
      exact h

theorem alookup_aset {α : Type} (l : List (String × α)) (k : String)
    (v : α) : alookup (aset l k v) k = some v := by
  unfold aset
  split
  · rename_i h
    exact alookup_map_replace l k v h
  · rename_i h
    refine alookup_append_single l k v ?_
    rw [alookup_eq_none_iff]
    rcases h2 : l.find? (fun p => p.1 = k) with _ | w
    · exact h2
    · rw [h2] at h
      exact absurd rfl h

theorem alookup_aremove {α : Type} (l : List (String × α)) (k : String) :
    alookup (aremove l k) k = none := by
  rw [alookup_eq_none_iff]
  rw [List.find?_eq_none]
  intro p hp
  have hmem := List.of_mem_filter hp
  simp only [decide_not, Bool.not_eq_true', decide_eq_false_iff_not] at hmem
  simp [hmem]

/-- Value of `client.search` under an injected failure. -/
theorem clientSearch_err (server : QdrantDB) (orc : QdrantOracle)
    (name : String) (qvec : List ℚ) (limit : ℕ)
    (fd : Option (List (String × String))) (e : PyErr)
    (he : orc.searchErr = some e) :
    clientSearch server orc name qvec limit fd = Except.error e := by
  unfold clientSearch
  rw [he]

/-- Value of `client.search` when no failure is injected and the collection
exists on the server. -/
theorem clientSearch_ok_state (server : QdrantDB) (orc : QdrantOracle)
    (name : String) (qvec : List ℚ) (limit : ℕ)
    (fd : Option (List (String × String))) (c : QColl)
    (he : orc.searchErr = none) (hsrv : alookup server name = some c) :
    clientSearch server orc name qvec limit fd =
      (if qvec.length ≠ c.dim then Except.error PyErr.dimError
       else Except.ok (((match fd with
         | some f => c.points.filter (fun p => payloadMatches p.payload f)
         | none => c.points) : List QPoint).take limit)) := by
  unfold clientSearch
  rw [he, hsrv]

/-- When the fallback text store for a collection is missing or empty, the
degraded text search returns the empty list. -/
theorem fallback_text_search_empty (st : VDBState) (name : String)
    (top_k : ℕ) (filter_dict : Option (List (String × String)))
    (h : alookup st.text_stores name = none ∨
      alookup st.text_stores name = some []) :
    fallback_text_search st name top_k filter_dict = [] := by
  unfold fallback_text_search
  rcases h with h | h <;> rw [h]
  simp

/-- Claim C1: `VectorDBService.search` never propagates an exception: every
path of the faithful embedding returns `.ok`.  When the named collection is
absent (not in the service's collection mirror in Qdrant mode, no FAISS
index in local mode) it returns `[]`; when it exists but holds no points and
the degraded text store is also empty, it returns `[]` — in particular for
any injected backend failure, including a dimension mismatch, the result is
the fallback text search rather than an exception. -/
theorem search_never_raises (st : VDBState) (orc : QdrantOracle)
    (name : String) (qvec : List ℚ) (top_k : ℕ)
    (filter_dict : Option (List (String × String))) :
    (∃ l, search st orc name qvec top_k filter_dict = Except.ok l) ∧
    (st.use_qdrant = true → name ∉ st.collections →
      search st orc name qvec top_k filter_dict = Except.ok []) ∧
    (st.use_qdrant = false → alookup st.indexes name = none →
      search st orc name qvec top_k filter_dict = Except.ok []) ∧
    ((alookup st.text_stores name = none ∨
        alookup st.text_stores name = some []) →
      (∀ c : QColl, st.use_qdrant = true →
        alookup st.server name = some c → c.points = [] →
        search st orc name qvec top_k filter_dict = Except.ok []) ∧
      (∀ idx : FaissIndex, st.use_qdrant = false →
        alookup st.indexes name = some idx → idx.vectors = [] →
        search st orc name qvec top_k filter_dict = Except.ok [])) := by
  refine ⟨?_, ?_, ?_, ?_⟩
  · unfold search
    split
    · split
      · exact ⟨[], rfl⟩
      · split
        · exact ⟨_, rfl⟩
        · exact ⟨_, rfl⟩
    · split
      · exact ⟨[], rfl⟩
      · split
        · split
          · exact ⟨_, rfl⟩
          · split
            · exact ⟨_, rfl⟩
            · exact ⟨_, rfl⟩
        · exact ⟨_, rfl⟩
  · intro hq hmem
    unfold search
    rw [hq, if_pos rfl, if_pos hmem]
  · intro hq hidx
    unfold search
    rw [hq]
    simp only [Bool.false_eq_true, if_false]
    rw [hidx]
  · intro htext
    constructor
    · intro c hq hsrv hpts
      unfold search
      rw [hq, if_pos rfl]
      by_cases hmem : name ∈ st.collections
      · rw [if_neg (by simpa using hmem)]
        rcases he : orc.searchErr with _ | e
        · rw [clientSearch_ok_state st.server orc name qvec top_k
            filter_dict c he hsrv]
          by_cases hd : qvec.length ≠ c.dim
          · rw [if_pos hd]
            exact congrArg Except.ok
              (fallback_text_search_empty st name top_k filter_dict htext)
          · rw [if_neg hd, hpts]
            rcases filter_dict with _ | f <;> simp
        · rw [clientSearch_err st.server orc name qvec top_k filter_dict e
            he]
          exact congrArg Except.ok
            (fallback_text_search_empty st name top_k filter_dict htext)
      · rw [if_pos hmem]
    · intro idx hq hidx hvec
      obtain ⟨d, vecs⟩ := idx
      have hv : vecs = [] := hvec
      subst hv
      unfold search
      rw [hq]
      simp only [Bool.false_eq_true, if_false]
      rw [hidx]
      have hfb := fallback_text_search_empty st name top_k filter_dict htext
      simp [hfb]

/-- Witness for `search_never_raises`: concrete queries against the
concrete Qdrant-mode state `cexVDBQ` — an absent collection returns `[]`,
and so does a search with an injected backend failure when the fallback
text store is empty. -/
theorem search_never_raises_witness :
    (cexVDBQ.use_qdrant = true ∧ ("nope" ∉ cexVDBQ.collections) ∧
      search cexVDBQ okOracle "nope" [1, 0] 5 none = Except.ok []) ∧
    ((alookup cexVDBQ.text_stores "t1" = none ∨
        alookup cexVDBQ.text_stores "t1" = some []) ∧
      search cexVDBQ ⟨some PyErr.otherErr, none, true, true, fun _ => true,
        fun _ _ => 0⟩ "t1" [1, 0] 5 none = Except.ok []) := by
  constructor
  · refine ⟨rfl, by decide, ?_⟩
    exact (search_never_raises cexVDBQ okOracle "nope" [1, 0] 5 none).2.1
      rfl (by decide)
  · refine ⟨Or.inl rfl, ?_⟩
    have h := (search_never_raises cexVDBQ
      ⟨some PyErr.otherErr, none, true, true, fun _ => true,
        fun _ _ => 0⟩ "t1" [1, 0] 5 none).1
    rcases h with ⟨l, hl⟩
    rw [hl]
    have : l = [] := by
      have h2 : search cexVDBQ ⟨some PyErr.otherErr, none, true, true,
          fun _ => true, fun _ _ => 0⟩ "t1" [1, 0] 5 none =
          Except.ok (fallback_text_search cexVDBQ "t1" 5 none) := by
        rfl
      rw [h2] at hl
      have h3 : fallback_text_search cexVDBQ "t1" 5 none = [] :=
        fallback_text_search_empty _ _ _ _ (Or.inl rfl)
      rw [h3] at hl
      exact (Except.ok.injEq _ _ ▸ hl : _).symm
    rw [this]

/-- Every element of every batch comes from the original list. -/
theorem toBatchesFrom_subset {α : Type} (n : ℕ) :
    ∀ (m : ℕ) (l : List α), l.length ≤ m → ∀ i : ℕ,
      ∀ b ∈ toBatchesFrom n i l, ∀ x ∈ b.2, x ∈ l := by
  intro m
  induction m with
  | zero =>
    intro l hl i b hb x hx
    have hnil : l = [] := List.eq_nil_of_length_eq_zero (Nat.le_zero.1 hl)
    subst hnil
    simp [toBatchesFrom] at hb
  | succ m ih =>
    intro l hl i b hb x hx
    cases l with
    | nil => simp [toBatchesFrom] at hb
    | cons a as =>
      rw [toBatchesFrom] at hb
      by_cases hn : n = 0
      · rw [if_pos hn] at hb
        simp at hb
      · rw [if_neg hn] at hb
        rcases List.mem_cons.1 hb with hb | hb
        · subst hb
          exact List.mem_of_mem_take hx
        · have hlen : ((a :: as).drop n).length ≤ m := by
            rw [List.length_drop]
            simp only [List.length_cons] at hl ⊢
            omega
          exact List.mem_of_mem_drop
            (ih ((a :: as).drop n) hlen (i + n) b hb x hx)

/-- Every vector of a built point is one of the incoming embeddings. -/
theorem buildPoints_vector_mem (start_id : ℕ) (texts : List String)
    (embeddings : List (List ℚ)) (metadatas : List Payload) :
    ∀ p ∈ buildPoints start_id texts embeddings metadatas,
      p.vector ∈ embeddings := by
  intro p hp
  unfold buildPoints at hp
  rcases List.mem_map.1 hp with ⟨ie, hie, rfl⟩
  obtain ⟨i, tem⟩ := ie
  have h2 := List.mem_enumFrom hie
  have h3 : tem = (List.zip texts (List.zip embeddings metadatas))[i - 0] :=
    h2.2.2
  have hmem : tem ∈ List.zip texts (List.zip embeddings metadatas) := by
    rw [h3]
    exact List.getElem_mem _
  obtain ⟨t, e, md⟩ := tem
  exact (List.of_mem_zip (List.of_mem_zip hmem).2).1

/-- The upsert loop only ever appends points of its batches to the named
collection, whose dimension it never changes. -/
theorem upsertLoop_points (orc : QdrantOracle) (name : String) :
    ∀ (batches : List (ℕ × List QPoint)) (server : QdrantDB) (c : QColl),
      alookup server name = some c →
      ∃ c', alookup (upsertLoop orc name batches server).1 name = some c' ∧
        c'.dim = c.dim ∧
        ∀ p ∈ c'.points, p ∈ c.points ∨ ∃ b ∈ batches, p ∈ b.2 := by
  intro batches
  induction batches with
  | nil =>
    intro server c h
    exact ⟨c, h, rfl, fun p hp => Or.inl hp⟩
  | cons b rest ih =>
    intro server c h
    obtain ⟨bstart, pts⟩ := b
    simp only [upsertLoop]
    by_cases hok : orc.upsertOk bstart = true
    · rw [hok]
      simp only [if_pos rfl, h]
      have hset := alookup_aset server name (⟨c.dim, c.points ++ pts⟩ : QColl)
      rcases ih (aset server name ⟨c.dim, c.points ++ pts⟩)
        ⟨c.dim, c.points ++ pts⟩ hset with ⟨c', hc', hdim, hpoints⟩
      refine ⟨c', hc', hdim, ?_⟩
      intro p hp
      rcases hpoints p hp with hp2 | ⟨b2, hb2, hpb2⟩
      · rcases List.mem_append.1 hp2 with hp3 | hp3
        · exact Or.inl hp3
        · exact Or.inr ⟨(bstart, pts), List.mem_cons_self _ _, hp3⟩
      · exact Or.inr ⟨b2, List.mem_cons_of_mem _ hb2, hpb2⟩
    · rw [Bool.not_eq_true] at hok
      rw [hok]
      simp only [Bool.false_eq_true, if_false]
      rcases ih server c h with ⟨c', hc', hdim, hpoints⟩
      refine ⟨c', hc', hdim, ?_⟩
      intro p hp
      rcases hpoints p hp with hp2 | ⟨b2, hb2, hpb2⟩
      · exact Or.inl hp2
      · exact Or.inr ⟨b2, List.mem_cons_of_mem _ hb2, hpb2⟩

theorem addFallbackStorage_server (st : VDBState) (name : String)
    (texts : List String) (metadatas : List Payload) :
    (addFallbackStorage st name texts metadatas).server = st.server := rfl

/-- Whether or not all upsert batches failed, `add_documents`'s final branch
leaves the server state alone (the fallback only touches the in-memory
stores). -/
theorem ite_pair_fst_server (cond : Prop) [Decidable cond] (a : VDBState)
    (name : String) (texts : List String) (metadatas : List Payload) :
    ((if cond then (addFallbackStorage a name texts metadatas, true)
      else (a, true)).1).server = a.server := by
  split
  · rfl
  · rfl

/-- Claim C2 (amended, Qdrant backend): when the service can introspect the
collection (`get_collection` succeeds) and finds a stored dimension that
differs from the incoming vectors' dimension, `add_documents` deletes the
collection and recreates it at the new dimension before inserting, so
afterwards every point of the collection has the new dimension — no point of
the old dimension remains. -/
theorem add_documents_rebuilds_on_mismatch (st : VDBState)
    (orc : QdrantOracle) (name : String) (texts : List String)
    (metadatas : List Payload) (c : QColl) (e0 : List ℚ)
    (es : List (List ℚ))
    (hq : st.use_qdrant = true)
    (hmem : name ∈ st.collections)
    (hnodup : st.collections.Nodup)
    (hsrv : alookup st.server name = some c)
    (hcache : dlookup st.dim_cache (name, e0.length) = none)
    (hgc : orc.getCollErr = none)
    (hdel : orc.deleteOk = true)
    (hcr : orc.createOk = true)
    (hlen : ∀ e ∈ e0 :: es, e.length = e0.length)
    (hdim : c.dim ≠ e0.length) :
    ∃ c', alookup (add_documents st orc name texts (e0 :: es)
        metadatas).1.server name = some c' ∧
      c'.dim = e0.length ∧
      ∀ p ∈ c'.points, p.vector.length = e0.length := by
  -- the post-introspection state: collection deleted and recreated
  have hserver2 : alookup (aset (aremove st.server name) name
      (⟨e0.length, []⟩ : QColl)) name = some ⟨e0.length, []⟩ :=
    alookup_aset _ name _
  have hnotmem : name ∉ st.collections.erase name := hnodup.not_mem_erase
  have hcreate : clientCreate (aremove st.server name) orc name e0.length =
      Except.ok (aset (aremove st.server name) name ⟨e0.length, []⟩) := by
    unfold clientCreate
    rw [hcr, if_pos rfl, alookup_aremove]
  have hED : ensureDims st orc name e0.length = Except.ok
      {({st with
          server := aset (aremove st.server name) name ⟨e0.length, []⟩
          collections :=
            name :: st.collections.erase name} : VDBState) with
        dim_cache := dset st.dim_cache (name, e0.length) true} := by
    unfold ensureDims
    rw [if_pos hmem, hcache]
    show (match clientGetColl st.server orc name with
      | .ok coll => _ | .error e => _) = _
    unfold clientGetColl
    rw [hgc, hsrv]
    show (if c.dim ≠ e0.length then _ else _) = _
    rw [if_pos hdim]
    show (match clientDelete st.server orc name with
      | .error e => _ | .ok server' => _) = _
    unfold clientDelete
    rw [hdel, if_pos rfl]
    show Except.ok _ = _
    simp [create_collection, hq, hnotmem, hcreate]
  -- run the rest of `add_documents`
  unfold add_documents
  rw [hq]
  simp only [hED, eq_self_iff_true, if_true]
  set stX : VDBState :=
    {({st with
        server := aset (aremove st.server name) name ⟨e0.length, []⟩
        collections := name :: st.collections.erase name} : VDBState) with
      dim_cache := dset st.dim_cache (name, e0.length) true} with hstX
  have hsX : alookup stX.server name = some ⟨e0.length, []⟩ := hserver2
  have hloop := upsertLoop_points orc name
    (toBatchesFrom 100 0 (buildPoints
      (match clientGetColl stX.server orc name with
       | .ok c => c.points.length
       | .error _ => 0) texts (e0 :: es) metadatas)) stX.server
    ⟨e0.length, []⟩ hsX
  rcases hloop with ⟨c', hc', hdim', hpts'⟩
  refine ⟨c', ?_, hdim', ?_⟩
  · rw [ite_pair_fst_server]
    exact hc'
  · intro p hp
    rcases hpts' p hp with hp2 | ⟨b, hb, hpb⟩
    · simp at hp2
    · have hx := toBatchesFrom_subset 100 _ _ (le_refl _) 0 b hb p hpb
      have hv := buildPoints_vector_mem _ texts (e0 :: es) metadatas p hx
      exact hlen p.vector hv

/-- Witness for `add_documents_rebuilds_on_mismatch`: inserting
3-dimensional vectors into the concrete 2-dimensional Qdrant collection of
`cexVDBQ` rebuilds it at dimension 3 with only 3-dimensional points. -/
theorem add_documents_rebuilds_on_mismatch_witness :
    ((2 : ℕ) ≠ 3 ∧ "t1" ∈ cexVDBQ.collections ∧
      cexVDBQ.use_qdrant = true) ∧
    ∃ c', alookup (add_documents cexVDBQ okOracle "t1" ["t"] [[1, 0, 0]]
        [[("k", "v")]]).1.server "t1" = some c' ∧
      c'.dim = 3 ∧ ∀ p ∈ c'.points, p.vector.length = 3 := by
  refine ⟨⟨by decide, by decide, rfl⟩, ?_⟩
  have h := add_documents_rebuilds_on_mismatch cexVDBQ okOracle "t1" ["t"]
    [[("k", "v")]] ⟨2, [⟨0, [1, 0], [("text", "old text")]⟩]⟩ [1, 0, 0] []
    rfl (by decide) (by decide) (by decide) rfl rfl rfl rfl
    (by decide) (by decide)
  simpa using h

/-- Claim C2, counterexample on the local FAISS backend: `add_documents`
performs no dimension check there.  Inserting a 3-dimensional vector into
the 2-dimensional index of `cexVDB` makes the `faiss` `add` call raise; the
old 2-dimensional point survives in the index and is still returned by
`search`, and the new text lands only in the degraded text store — no
rebuild happens, contradicting the claim that the behaviour is identical on
both backends. -/
theorem add_documents_faiss_no_dimension_check :
    (searchTotal (add_documents cexVDB okOracle "t1" ["new text"]
        [[1, 0, 0]] [[("chatbot_id", "t1")]]).1 okOracle "t1" [1, 0] 5
        none).map Hit.text = ["old text"] ∧
    (alookup (add_documents cexVDB okOracle "t1" ["new text"] [[1, 0, 0]]
        [[("chatbot_id", "t1")]]).1.indexes "t1").map
      (fun i => (i.dim, i.vectors.map List.length)) = some (2, [2]) ∧
    alookup (add_documents cexVDB okOracle "t1" ["new text"] [[1, 0, 0]]
        [[("chatbot_id", "t1")]]).1.text_stores "t1" =
      some ["old text", "new text"] := by
  refine ⟨?_, ?_, ?_⟩ <;> decide

set_option maxRecDepth 10000 in
/-- Claim C9, counterexample to the stated length bound: on the sentence
list of the cleaned text `"a. a. … a. xx…x"` (400 copies of `"a."`, then one
150-character sentence), the first of the two produced chunks has length
`1199 > 800 = chunk_size` although it is not the last chunk: the greedy
buffer bound counts sentence lengths without the 399 joining spaces. -/
theorem chunk_text_sentences_counterexample :
    (chunk_text_sentences defaultTP cexC9).length = 2 ∧
    (chunk_text_sentences defaultTP cexC9).map String.length =
      [1199, 150] ∧
    ¬(∀ c ∈ (chunk_text_sentences defaultTP cexC9).dropLast,
        c.length ≤ defaultTP.chunk_size) := by
  refine ⟨?_, ?_, ?_⟩
  · decide
  · decide
  · decide

/-! ## `ChatbotService.get_answer` never writes its answer cache (claim C6) -/

/-- Claim C6, the cache-write site is dead code: for every set of
collaborators, cache state, chatbot id, question and (possibly absent)
conversation id, `get_answer` returns with the answer cache unchanged.  In
particular a stateless question (`conversation_id = None`) is never stored,
so the claimed TTL-bounded reuse of stateless answers cannot occur; the
cause is that `conversation_id` is reassigned to a fresh (non-empty) uuid4
string at lines 257–258 before the write guard `if not conversation_id:
cache['set'](cache_key, result, ttl=ANSWER_TTL)` at lines 311–312 is
evaluated, so the guard never fires.  (The claim's second half —
conversation-scoped questions are never cached — holds, subsumed by this
equality.) -/
theorem get_answer_never_writes_cache (env : ChatbotEnv) (c : AnswerCache)
    (chatbot_id question : String) (conversation_id : Option String) :
    (get_answer env c chatbot_id question conversation_id).2 = c := by
  have hbody :
      (get_answer_body env c chatbot_id question conversation_id).2 = c := by
    unfold get_answer_body
    cases henv : env.chatbot_data with
    | none => rfl
    | some data =>
      have hid : (if pyTruthyOpt conversation_id = false then env.uuid
          else conversation_id.getD "") ≠ "" := by
        by_cases ht : pyTruthyOpt conversation_id = false
        · rw [if_pos ht]; exact env.uuid_nonempty
        · rw [if_neg ht]
          cases conversation_id with
          | none => simp [pyTruthyOpt] at ht
          | some s =>
            simp only [Option.getD_some]
            simp [pyTruthyOpt] at ht
            exact ht
      dsimp only
      rw [if_neg hid]
  unfold get_answer
  split
  · split
    · rfl
    · exact hbody
  · exact hbody

/-! ## The greeting branch of `get_enhanced_answer` (claim C7) -/

/-- With a cold context cache, `retrieve_relevant_context` always records
the question-embedding call in its effect trace. -/
theorem retrieve_effects_embed (env : NLPEnv) (vdb : VDBState)
    (question chatbot_id : String) (top_k : ℕ) :
    NLPEffect.embedCall question ∈
      (retrieve_relevant_context env vdb none question chatbot_id
        top_k).2 := by
  unfold retrieve_relevant_context
  dsimp only
  split <;> simp

/-- Claim C7 (amended): when the answer cache misses, the chatbot data
parses, and the collection already exists with points, a greeting-like
question (exact greeting word, greeting-initial, or shorter than 5
characters after lower+strip) makes `get_enhanced_answer` return the
formatted fixed greeting at confidence 100 — but retrieval is *not*
skipped: with a cold context cache the effect trace contains the
question-embedding call (and a vector search), performed before the
greeting test at line 941. -/
theorem get_enhanced_answer_greeting (env : NLPEnv) (vdb : VDBState)
    (caches : NLPCaches) (question chatbot_id : String)
    (conversation_history : Option (List Turn)) (pd : ParsedData)
    (hcache : caches.answerCache = none)
    (hparse : env.parse = some pd)
    (hex : (get_collection_info vdb env.orc chatbot_id).exists' = true)
    (hpc : (get_collection_info vdb env.orc chatbot_id).points_count ≠ 0)
    (hg : isGreeting (pyStrip (pyLower question)) = true) :
    (get_enhanced_answer env vdb caches question chatbot_id
        conversation_history).1 = env.fmt question greeting_answer 100 ∧
    (caches.contextCache = none →
      NLPEffect.embedCall question ∈
        (get_enhanced_answer env vdb caches question chatbot_id
          conversation_history).2) := by
  have hnc2 : ¬((get_collection_info vdb env.orc chatbot_id).exists' =
      false ∨
      (get_collection_info vdb env.orc chatbot_id).points_count = 0) := by
    rintro (h1 | h2)
    · rw [hex] at h1; simp at h1
    · exact hpc h2
  have hnc : ¬(((get_collection_info vdb env.orc chatbot_id).exists' =
      false ∨
      (get_collection_info vdb env.orc chatbot_id).points_count = 0) ∧
      env.preprocess.1 = false) := fun h => hnc2 h.1
  have main : get_enhanced_answer env vdb caches question chatbot_id
      conversation_history =
      (env.fmt question greeting_answer 100,
       (retrieve_relevant_context env vdb caches.contextCache question
         chatbot_id 8).2) := by
    unfold get_enhanced_answer
    rw [hcache, hparse]
    dsimp only
    rw [if_neg hnc, if_neg hnc2, hg, if_pos rfl]
  refine ⟨by rw [main], fun hctx => ?_⟩
  rw [main, hctx]
  exact retrieve_effects_embed env vdb question chatbot_id 8

/-- Witness for `get_enhanced_answer_greeting`: the concrete scenario with
question `"hey"` against the populated local collection `"t1"`. -/
theorem get_enhanced_answer_greeting_witness :
    (get_enhanced_answer cexNLPEnv cexVDB coldCaches "hey" "t1" none).1 =
      cexNLPEnv.fmt "hey" greeting_answer 100 ∧
    (coldCaches.contextCache = none →
      NLPEffect.embedCall "hey" ∈
        (get_enhanced_answer cexNLPEnv cexVDB coldCaches "hey" "t1"
          none).2) :=
  get_enhanced_answer_greeting cexNLPEnv cexVDB coldCaches "hey" "t1" none
    cexParsed rfl rfl (by decide) (by decide) (by decide)

/-- Claim C7, counterexample to "skips retrieval entirely (no question
embedding is computed and no vector-store search is performed)": in the
concrete greeting scenario (question `"hi"`, populated collection `"t1"`,
cold caches) the call does return the fixed greeting, yet its effect trace
records the question embedding and the vector search that ran before the
greeting check. -/
theorem get_enhanced_answer_greeting_retrieves :
    (get_enhanced_answer cexNLPEnv cexVDB coldCaches "hi" "t1" none).1 =
      greeting_answer ∧
    (get_enhanced_answer cexNLPEnv cexVDB coldCaches "hi" "t1" none).2 =
      [NLPEffect.embedCall "hi", NLPEffect.vectorSearch "t1"] := by
  constructor
  · decide
  · decide

/-! ## The disclaimer policy of the answer pipeline (claim C8) -/

/-- On the main path (cache miss, parsed data, populated collection,
non-greeting question, Groq configured, nonempty retrieval),
`get_enhanced_answer` returns the formatted LLM draft with the draft's own
confidence whenever that confidence is not below MEDIUM. -/
theorem get_enhanced_answer_main (env : NLPEnv) (vdb : VDBState)
    (caches : NLPCaches) (question chatbot_id : String)
    (conversation_history : Option (List Turn)) (pd : ParsedData)
    (llm : String → List String → Option (List Turn) → String)
    (hcache : caches.answerCache = none)
    (hparse : env.parse = some pd)
    (hex : (get_collection_info vdb env.orc chatbot_id).exists' = true)
    (hpc : (get_collection_info vdb env.orc chatbot_id).points_count ≠ 0)
    (hg : isGreeting (pyStrip (pyLower question)) = false)
    (hgroq : env.groq = some llm)
    (hrc : pipelineChunks env vdb caches question chatbot_id ≠ [])
    (hconf : ¬(pipelineConfidence env vdb caches question chatbot_id
      conversation_history < THRESHOLD_MEDIUM)) :
    (get_enhanced_answer env vdb caches question chatbot_id
        conversation_history).1 =
      env.fmt question
        (pipelineDraft env vdb caches question chatbot_id
          conversation_history)
        (pipelineConfidence env vdb caches question chatbot_id
          conversation_history) := by
  have hnc2 : ¬((get_collection_info vdb env.orc chatbot_id).exists' =
      false ∨
      (get_collection_info vdb env.orc chatbot_id).points_count = 0) := by
    rintro (h1 | h2)
    · rw [hex] at h1; simp at h1
    · exact hpc h2
  have hnc : ¬(((get_collection_info vdb env.orc chatbot_id).exists' =
      false ∨
      (get_collection_info vdb env.orc chatbot_id).points_count = 0) ∧
      env.preprocess.1 = false) := fun h => hnc2 h.1
  have hrc' : (retrieve_relevant_context env vdb caches.contextCache
      question chatbot_id 8).1 ≠ [] := hrc
  have hconf' : ¬(calculate_response_confidence question
      (retrieve_relevant_context env vdb caches.contextCache question
        chatbot_id 8).1
      (generate_answer_with_llm env caches.llmCache question
        (retrieve_relevant_context env vdb caches.contextCache question
          chatbot_id 8).1 conversation_history) < THRESHOLD_MEDIUM) :=
    hconf
  unfold get_enhanced_answer
  rw [hcache, hparse]
  dsimp only
  rw [if_neg hnc, if_neg hnc2, hg, if_neg (by simp : ¬(false = true)),
    if_neg hrc', hgroq]
  dsimp only
  rw [if_neg hconf']
  rfl

/-- The C8 scenario's draft confidence, computed exactly:
`25/3 + 15 + 20 + 20 - 0 = 190/3 ≈ 63.3`. -/
theorem conf8_eq :
    calculate_response_confidence q8 [chunk8] draft8 = 190 / 3 := by
  have hfil : ((pySplit (pyLower q8)).dedup.filter
      (fun w => w ∈ (pySplit (pyLower (pyJoin [chunk8]))).dedup)).length
      = 4 := by decide
  have hqlen : (pySplit (pyLower q8)).dedup.length = 8 := by decide
  have hans : (pySplit draft8).length = 27 := by decide
  have hpen : (uncertainty_markers.filter
      (fun m => strContains (pyLower draft8) m)).length = 0 := by decide
  have hqs : ((pySplit q8).filter (fun w => w.length > 3)).length = 4 := by
    decide
  have hne : (pySplit (pyLower q8)).dedup ≠ [] := by decide
  unfold calculate_response_confidence
  rw [if_neg (by simp : ¬([chunk8] : List String) = [])]
  dsimp only
  rw [if_pos hne, hfil, hans, hqs, hpen, hqlen]
  norm_num [List.length_cons, List.length_nil, min_def, max_def]

/-- Claim C8, counterexample: in the concrete scenario the draft's
confidence is `190/3` — at least MEDIUM (50) and below HIGH (70) — yet
`get_enhanced_answer` returns the draft as-is, with no appended
uncertainty note: the disclaimer exists only inside
`generate_enhanced_fallback_response`, which the main path consults only
when confidence is *below* MEDIUM. -/
theorem get_enhanced_answer_no_disclaimer :
    THRESHOLD_MEDIUM ≤ calculate_response_confidence q8 [chunk8] draft8 ∧
    calculate_response_confidence q8 [chunk8] draft8 < THRESHOLD_HIGH ∧
    (get_enhanced_answer cexNLPEnv8 cexVDB8 coldCaches q8 "bot" none).1 =
      draft8 ∧
    strContains draft8 "Please note" = false := by
  have hchunks : pipelineChunks cexNLPEnv8 cexVDB8 coldCaches q8 "bot" =
      [chunk8] := by decide
  have hdraft : pipelineDraft cexNLPEnv8 cexVDB8 coldCaches q8 "bot"
      none = draft8 := by decide
  have hconfv : pipelineConfidence cexNLPEnv8 cexVDB8 coldCaches q8 "bot"
      none = 190 / 3 := by
    unfold pipelineConfidence
    rw [hchunks, hdraft]
    exact conf8_eq
  have hc : ¬(pipelineConfidence cexNLPEnv8 cexVDB8 coldCaches q8 "bot"
      none < THRESHOLD_MEDIUM) := by
    rw [hconfv]; norm_num [THRESHOLD_MEDIUM]
  have hmain := get_enhanced_answer_main cexNLPEnv8 cexVDB8 coldCaches q8
    "bot" none cexParsed cexLLM8 rfl rfl (by decide) (by decide)
    (by decide) rfl (by rw [hchunks]; simp) hc
  refine ⟨by rw [conf8_eq]; norm_num [THRESHOLD_MEDIUM],
    by rw [conf8_eq]; norm_num [THRESHOLD_HIGH], ?_, by decide⟩
  rw [hmain, hdraft]
  rfl

/-- Claim C8 (amended): the `[50, 70)` disclaimer branch exists only
inside `generate_enhanced_fallback_response`: there (cache miss, nonempty
chunks) a draft with confidence `≥ 70` is returned as-is and one with
confidence in `[50, 70)` gets the uncertainty note appended.  The main
`get_enhanced_answer` path, however, never consults that function when the
draft's confidence is `≥ 50` (it falls back only below MEDIUM): it returns
the formatted draft unchanged for every such confidence, so answers with
confidence in `[50, 70)` reach the caller without any disclaimer. -/
theorem enhanced_fallback_disclaimer_policy (env : NLPEnv)
    (vdb : VDBState) (caches : NLPCaches) (question chatbot_id : String)
    (conversation_history : Option (List Turn)) (pd : ParsedData)
    (llm : String → List String → Option (List Turn) → String)
    (chunks all_content : List String)
    (hch : chunks ≠ [])
    (hcache : caches.answerCache = none)
    (hparse : env.parse = some pd)
    (hex : (get_collection_info vdb env.orc chatbot_id).exists' = true)
    (hpc : (get_collection_info vdb env.orc chatbot_id).points_count ≠ 0)
    (hg : isGreeting (pyStrip (pyLower question)) = false)
    (hgroq : env.groq = some llm)
    (hrc : pipelineChunks env vdb caches question chatbot_id ≠ []) :
    (THRESHOLD_HIGH ≤ calculate_response_confidence question chunks
        (generate_answer_with_llm env none question chunks
          conversation_history) →
      generate_enhanced_fallback_response env none none question chunks
          all_content conversation_history =
        ⟨generate_answer_with_llm env none question chunks
           conversation_history,
         calculate_response_confidence question chunks
           (generate_answer_with_llm env none question chunks
             conversation_history), 1, "direct_answer"⟩) ∧
    (THRESHOLD_MEDIUM ≤ calculate_response_confidence question chunks
        (generate_answer_with_llm env none question chunks
          conversation_history) ∧
      calculate_response_confidence question chunks
        (generate_answer_with_llm env none question chunks
          conversation_history) < THRESHOLD_HIGH →
      generate_enhanced_fallback_response env none none question chunks
          all_content conversation_history =
        ⟨generate_answer_with_llm env none question chunks
           conversation_history ++ uncertainty_note,
         calculate_response_confidence question chunks
           (generate_answer_with_llm env none question chunks
             conversation_history), 2,
         "partial_answer_with_disclaimer"⟩) ∧
    (THRESHOLD_MEDIUM ≤ pipelineConfidence env vdb caches question
        chatbot_id conversation_history →
      (get_enhanced_answer env vdb caches question chatbot_id
          conversation_history).1 =
        env.fmt question
          (pipelineDraft env vdb caches question chatbot_id
            conversation_history)
          (pipelineConfidence env vdb caches question chatbot_id
            conversation_history)) := by
  refine ⟨?_, ?_, ?_⟩
  · intro hH
    unfold generate_enhanced_fallback_response
    dsimp only
    rw [if_neg hch, if_pos hH]
  · rintro ⟨hM, hHlt⟩
    unfold generate_enhanced_fallback_response
    dsimp only
    rw [if_neg hch, if_neg (not_le.mpr hHlt), if_pos hM]
  · intro hMconf
    exact get_enhanced_answer_main env vdb caches question chatbot_id
      conversation_history pd llm hcache hparse hex hpc hg hgroq hrc
      (not_lt.mpr hMconf)

/-- Witness for `enhanced_fallback_disclaimer_policy`: instantiated at the
concrete C8 scenario (question `q8`, stored chunk `chunk8`, echo LLM). -/
theorem enhanced_fallback_disclaimer_policy_witness :
    (THRESHOLD_HIGH ≤ calculate_response_confidence q8 [chunk8]
        (generate_answer_with_llm cexNLPEnv8 none q8 [chunk8] none) →
      generate_enhanced_fallback_response cexNLPEnv8 none none q8 [chunk8]
          ["old text"] none =
        ⟨generate_answer_with_llm cexNLPEnv8 none q8 [chunk8] none,
         calculate_response_confidence q8 [chunk8]
           (generate_answer_with_llm cexNLPEnv8 none q8 [chunk8] none),
         1, "direct_answer"⟩) ∧
    (THRESHOLD_MEDIUM ≤ calculate_response_confidence q8 [chunk8]
        (generate_answer_with_llm cexNLPEnv8 none q8 [chunk8] none) ∧
      calculate_response_confidence q8 [chunk8]
        (generate_answer_with_llm cexNLPEnv8 none q8 [chunk8] none) <
        THRESHOLD_HIGH →
      generate_enhanced_fallback_response cexNLPEnv8 none none q8 [chunk8]
          ["old text"] none =
        ⟨generate_answer_with_llm cexNLPEnv8 none q8 [chunk8] none ++
           uncertainty_note,
         calculate_response_confidence q8 [chunk8]
           (generate_answer_with_llm cexNLPEnv8 none q8 [chunk8] none),
         2, "partial_answer_with_disclaimer"⟩) ∧
    (THRESHOLD_MEDIUM ≤ pipelineConfidence cexNLPEnv8 cexVDB8 coldCaches
        q8 "bot" none →
      (get_enhanced_answer cexNLPEnv8 cexVDB8 coldCaches q8 "bot"
          none).1 =
        cexNLPEnv8.fmt q8
          (pipelineDraft cexNLPEnv8 cexVDB8 coldCaches q8 "bot" none)
          (pipelineConfidence cexNLPEnv8 cexVDB8 coldCaches q8 "bot"
            none)) :=
  enhanced_fallback_disclaimer_policy cexNLPEnv8 cexVDB8 coldCaches q8
    "bot" none cexParsed cexLLM8 [chunk8] ["old text"] (by simp) rfl rfl
    (by decide) (by decide) (by decide) rfl (by decide)

end XavierAI
